import Mathlib

/-!
The hqdn3d denoise filter of `libhb/denoise.c`.

A shallow embedding of the spatial/temporal recursive denoiser and of the
stage initialisation, followed by the properties established about them.

Conventions of the embedding

* `unsigned char`, `unsigned short` and `unsigned int` buffers are functions
  from an offset to a natural number; every store truncates to the width of
  the element type.
* `unsigned int` arithmetic is arithmetic modulo `2^32`; `int` values are
  integers, wrapped to the two's complement range where the source computes
  them from unsigned operands.
* A coefficient table is a function from the (signed) index to the word at
  that index: the indices `0..8191` are the table `int ct[512*16]`, every
  other index is the memory around it, which the table builder never writes
  and which an unchecked lookup outside the table reads.
* `double` arithmetic is arithmetic in an ordered field `K` with a floor
  function; the C library functions `log` and `pow` are supplied by a record
  `Libm K`.  Over the reals they are `Real.log` and the real power.
-/

namespace Hqdn3d

/-! ## Machine integers -/

/-- Value of an integer expression converted to `unsigned int`. -/
def u32 (z : Int) : Nat := (z % 2 ^ 32).toNat

/-- Value of an integer expression converted to `int` (two's complement). -/
def i32 (z : Int) : Int := (z + 2 ^ 31) % 2 ^ 32 - 2 ^ 31

/-- A memory buffer of unsigned samples, addressed by offset. -/
abbrev Buf := Nat → Nat

/-- A coefficient table `int ct[512*16]` with the memory around it, addressed
by the index relative to the first entry: the indices `0..8191` are the
table, any other index is memory outside it. -/
abbrev Coef := Int → Int

/-! ## Coefficient table builder -/

/-- The two C library functions used by `hqdn3d_precalc_coef`. -/
structure Libm (K : Type) where
  /-- natural logarithm -/
  log : K → K
  /-- power function `pow(x, y)` -/
  pow : K → K → K

/-- Conversion of a `double` to `int`: truncation toward zero. -/
def truncToInt {K : Type} [LinearOrderedField K] [FloorRing K] (c : K) : Int :=
  if c < 0 then ⌈c⌉ else ⌊c⌋

/-- The exponent `gamma` of line 63. -/
def precalc_gamma {K : Type} [LinearOrderedField K] (m : Libm K) (dist25 : K) : K :=
  m.log (1 / 4) / m.log (1 - dist25 / 255 - 1 / 100000)

/-- The value `c` of lines 67-68 for the difference `i`. -/
def precalc_c {K : Type} [LinearOrderedField K] (m : Libm K) (dist25 : K) (i : Int) : K :=
  let gamma := precalc_gamma m dist25
  let simil := 1 - ((|i| : Int) : K) / (16 * 255)
  m.pow simil gamma * 65536 * (i : K) / 16

/-- The rounded entry stored by line 69 for the difference `i`. -/
def precalc_entry {K : Type} [LinearOrderedField K] [FloorRing K]
    (m : Libm K) (dist25 : K) (i : Int) : Int :=
  let c := precalc_c m dist25 i
  if c < 0 then truncToInt (c - 1 / 2) else truncToInt (c + 1 / 2)

/-- One iteration of the loop of lines 65-70: the store `ct[16*256+i] = ...`. -/
def precalc_store {K : Type} [LinearOrderedField K] [FloorRing K]
    (m : Libm K) (dist25 : K) (ct : Coef) (i : Int) : Coef :=
  Function.update ct (16 * 256 + i) (precalc_entry m dist25 i)

/-- The loop of lines 65-70 over `i = -255*16 .. 255*16`, in order. -/
def precalc_loop {K : Type} [LinearOrderedField K] [FloorRing K]
    (m : Libm K) (ct : Coef) (dist25 : K) : Coef :=
  (List.range (2 * (255 * 16) + 1)).foldl
    (fun (c : Coef) (n : Nat) => precalc_store m dist25 c ((n : Int) - 255 * 16)) ct

/-- The function `hqdn3d_precalc_coef`: the loop followed by the store of
the sentinel `ct[0] = (dist25 != 0)`. -/
def hqdn3d_precalc_coef {K : Type} [LinearOrderedField K] [FloorRing K]
    (m : Libm K) (ct : Coef) (dist25 : K) : Coef :=
  Function.update (precalc_loop m ct dist25) 0 (if dist25 ≠ 0 then 1 else 0)

/-- The C library over the reals: `log` and `pow` in exact real arithmetic. -/
noncomputable def realLibm : Libm ℝ := ⟨Real.log, fun x y => x ^ y⟩

/-! ## Recursive lowpass primitive -/

/-- The table index `d` of lines 79-80: the unsigned difference converted to
`int`, the `int` sum with the bias in two's complement, and the arithmetic
shift right by 12. -/
def lowpass_index (prev_mul curr_mul : Nat) : Int :=
  let diff_mul : Int := i32 ((prev_mul : Int) - (curr_mul : Int))
  i32 (diff_mul + 0x10007FF) >>> (12 : Nat)

/-- The function `hqdn3d_lowpass_mul`.  The source does not check `d`: for
`d` outside `0..8191` the lookup `coef[d]` reads the memory around the table,
here the value of `coef` at that index. -/
def hqdn3d_lowpass_mul (prev_mul curr_mul : Nat) (coef : Coef) : Nat :=
  u32 ((curr_mul : Int) + coef (lowpass_index prev_mul curr_mul))

/-- The store `frame_ant[x] = (tmp+0x7F)>>8` into an `unsigned short`. -/
def store_ant (tmp : Nat) : Nat := (((tmp + 0x7F) % 2 ^ 32) >>> 8) % 2 ^ 16

/-- The store `frame_dst[x] = (tmp+0x7FFF)>>16` into an `unsigned char`. -/
def store_dst (tmp : Nat) : Nat := (((tmp + 0x7FFF) % 2 ^ 32) >>> 16) % 2 ^ 8

/-! ## Temporal pass -/

/-- The buffers written by the temporal pass. -/
structure TState where
  /-- output plane -/
  frame_dst : Buf
  /-- previous-frame buffer -/
  frame_ant : Buf

/-- Body of the inner loop of `hqdn3d_denoise_temporal` at offset `p`. -/
def temporal_px (frame_src : Buf) (temporal : Coef) (st : TState) (p : Nat) : TState :=
  let tmp := hqdn3d_lowpass_mul (st.frame_ant p <<< 8) (frame_src p <<< 16) temporal
  { frame_ant := Function.update st.frame_ant p (store_ant tmp),
    frame_dst := Function.update st.frame_dst p (store_dst tmp) }

/-- The function `hqdn3d_denoise_temporal`; row `y` starts at offset `y*w`. -/
def hqdn3d_denoise_temporal (frame_src frame_dst frame_ant : Buf) (w h : Nat)
    (temporal : Coef) : TState :=
  (List.range h).foldl
    (fun st y => (List.range w).foldl
      (fun s x => temporal_px frame_src temporal s (y * w + x)) st)
    ⟨frame_dst, frame_ant⟩

/-! ## Spatial pass -/

/-- The buffers and the running value of the spatial pass. -/
structure SState where
  /-- row accumulator -/
  line_ant : Buf
  /-- previous-frame buffer -/
  frame_ant : Buf
  /-- output plane -/
  frame_dst : Buf
  /-- horizontal running value -/
  pixel_ant : Nat

/-- Temporal blend of the spatial value `v` and the two stores at offset `p`
(lines 130-132, 149-153 and 158-162). -/
def spatial_out (temporal : Coef) (st : SState) (p v : Nat) : SState :=
  let tmp := hqdn3d_lowpass_mul (st.frame_ant p <<< 8) v temporal
  { st with
    frame_ant := Function.update st.frame_ant p (store_ant tmp),
    frame_dst := Function.update st.frame_dst p (store_dst tmp) }

/-- Body of the first-row loop (lines 127-132). -/
def spatial_row0_px (frame_src : Buf) (spatial temporal : Coef) (st : SState)
    (x : Nat) : SState :=
  let pa := hqdn3d_lowpass_mul st.pixel_ant (frame_src x <<< 16) spatial
  spatial_out temporal
    { st with line_ant := Function.update st.line_ant x pa, pixel_ant := pa } x pa

/-- Body of the inner loop of rows `1..h-1` (lines 143-153). -/
def spatial_inner_px (frame_src : Buf) (spatial temporal : Coef) (w y : Nat)
    (st : SState) (x : Nat) : SState :=
  let tmp := hqdn3d_lowpass_mul (st.line_ant x) st.pixel_ant spatial
  let pa := hqdn3d_lowpass_mul st.pixel_ant (frame_src (y * w + (x + 1)) <<< 16) spatial
  spatial_out temporal
    { st with line_ant := Function.update st.line_ant x tmp, pixel_ant := pa }
    (y * w + x) tmp

/-- The step after the inner loop (lines 155-162), at the final value of `x`. -/
def spatial_last_px (spatial temporal : Coef) (w y : Nat) (st : SState)
    (x : Nat) : SState :=
  let tmp := hqdn3d_lowpass_mul (st.line_ant x) st.pixel_ant spatial
  spatial_out temporal
    { st with line_ant := Function.update st.line_ant x tmp } (y * w + x) tmp

/-- One iteration of the loop over rows `y = 1 .. h-1` (lines 137-162). -/
def spatial_row (frame_src : Buf) (spatial temporal : Coef) (w : Nat)
    (st : SState) (y : Nat) : SState :=
  let st1 := { st with pixel_ant := frame_src (y * w) <<< 16 }
  let st2 := (List.range (w - 1)).foldl
    (spatial_inner_px frame_src spatial temporal w y) st1
  spatial_last_px spatial temporal w y st2 (w - 1)

/-- The function `hqdn3d_denoise_spatial`. -/
def hqdn3d_denoise_spatial (frame_src frame_dst line_ant frame_ant : Buf)
    (w h : Nat) (spatial temporal : Coef) : SState :=
  let st0 : SState := ⟨line_ant, frame_ant, frame_dst, frame_src 0 <<< 16⟩
  let st1 := (List.range w).foldl (spatial_row0_px frame_src spatial temporal) st0
  (List.range (h - 1)).foldl
    (fun st n => spatial_row frame_src spatial temporal w st (n + 1)) st1

/-! ## Plane driver -/

/-- The buffers after one call of `hqdn3d_denoise`. -/
structure Planes where
  /-- output plane -/
  frame_dst : Buf
  /-- row accumulator -/
  line_ant : Buf
  /-- previous-frame buffer, now allocated -/
  frame_ant : Buf

/-- The seeding loop of lines 182-188 on a freshly allocated buffer:
`frame_ant[x] = frame_src[x]<<8` for all `w*h` offsets. -/
def seed_frame_ant (frame_src : Buf) (w h : Nat) : Buf :=
  (List.range h).foldl
    (fun fa y => (List.range w).foldl
      (fun f x => Function.update f (y * w + x) ((frame_src (y * w + x) <<< 8) % 2 ^ 16)) fa)
    (fun _ => 0)

/-- The function `hqdn3d_denoise`.  `frame_ant_ptr = none` is the null
pointer of an unseen plane. -/
def hqdn3d_denoise (frame_src frame_dst line_ant : Buf) (frame_ant_ptr : Option Buf)
    (w h : Nat) (spatial temporal : Coef) : Planes :=
  let frame_ant : Buf :=
    match frame_ant_ptr with
    | none => seed_frame_ant frame_src w h
    | some fa => fa
  if spatial 0 ≠ 0 then
    let r := hqdn3d_denoise_spatial frame_src frame_dst line_ant frame_ant w h spatial temporal
    ⟨r.frame_dst, r.line_ant, r.frame_ant⟩
  else
    let r := hqdn3d_denoise_temporal frame_src frame_dst frame_ant w h temporal
    ⟨r.frame_dst, line_ant, r.frame_ant⟩

/-- Feeding a sequence of frames of one plane to `hqdn3d_denoise`, each into
a fresh output buffer `dst0`; returns the outputs in order and the final
row accumulator and previous-frame pointer. -/
def denoise_frames (w h : Nat) (spatial temporal : Coef) (dst0 : Buf) :
    List Buf → Buf → Option Buf → List Buf × Buf × Option Buf
  | [], line_ant, fa => ([], line_ant, fa)
  | src :: rest, line_ant, fa =>
    let r := hqdn3d_denoise src dst0 line_ant fa w h spatial temporal
    let t := denoise_frames w h spatial temporal dst0 rest r.line_ant (some r.frame_ant)
    (r.frame_dst :: t.1, t.2)

/-! ## The spatial recurrence, written out -/

/-- Horizontal running value of the first row after `k` steps:
`rowH 0 = src[0]<<16` and `rowH (k+1) = Ls(rowH k, src[k]<<16)`. -/
def rowH (frame_src : Buf) (spatial : Coef) : Nat → Nat
  | 0 => frame_src 0 <<< 16
  | k + 1 => hqdn3d_lowpass_mul (rowH frame_src spatial k) (frame_src k <<< 16) spatial

/-- Horizontal running value of row `y >= 1` at column `x`:
`rowP 0 = src[y][0]<<16` and `rowP (x+1) = Ls(rowP x, src[y][x+1]<<16)`. -/
def rowP (frame_src : Buf) (spatial : Coef) (w y : Nat) : Nat → Nat
  | 0 => frame_src (y * w) <<< 16
  | x + 1 => hqdn3d_lowpass_mul (rowP frame_src spatial w y x)
      (frame_src (y * w + (x + 1)) <<< 16) spatial

/-- The spatially filtered value of pixel `(x, y)`: the first row is the
horizontal recurrence, each later row blends the value above with the
horizontal running value of its own row. -/
def spatialV (frame_src : Buf) (spatial : Coef) (w : Nat) : Nat → Nat → Nat
  | 0, x => rowH frame_src spatial (x + 1)
  | y + 1, x => hqdn3d_lowpass_mul (spatialV frame_src spatial w y x)
      (rowP frame_src spatial w (y + 1) x) spatial

/-! ## Closed forms of the intermediate states -/

/-- The buffers of the temporal pass once the offsets `0 .. n-1` are done. -/
def temporal_after (frame_src frame_dst frame_ant : Buf) (temporal : Coef)
    (n : Nat) : TState :=
  { frame_dst := fun p =>
      if p < n then
        store_dst (hqdn3d_lowpass_mul (frame_ant p <<< 8) (frame_src p <<< 16) temporal)
      else frame_dst p,
    frame_ant := fun p =>
      if p < n then
        store_ant (hqdn3d_lowpass_mul (frame_ant p <<< 8) (frame_src p <<< 16) temporal)
      else frame_ant p }

/-- The temporal blend of the spatial value of offset `p` against the entry
of the previous-frame buffer `frame_ant` found on entry. -/
def spatial_tmp (frame_src frame_ant : Buf) (w : Nat) (spatial temporal : Coef)
    (p : Nat) : Nat :=
  hqdn3d_lowpass_mul (frame_ant p <<< 8) (spatialV frame_src spatial w (p / w) (p % w))
    temporal

/-- The state of the spatial pass once the rows above `y` and the first `k`
columns of row `y` are done, with running value `pa`. -/
def spatial_after (frame_src frame_dst line_ant frame_ant : Buf) (w : Nat)
    (spatial temporal : Coef) (y k pa : Nat) : SState :=
  { line_ant := fun x =>
      if x < k then spatialV frame_src spatial w y x
      else if 0 < y ∧ x < w then spatialV frame_src spatial w (y - 1) x
      else line_ant x,
    frame_ant := fun p =>
      if p < y * w + k then store_ant (spatial_tmp frame_src frame_ant w spatial temporal p)
      else frame_ant p,
    frame_dst := fun p =>
      if p < y * w + k then store_dst (spatial_tmp frame_src frame_ant w spatial temporal p)
      else frame_dst p,
    pixel_ant := pa }

/-! ## Stage initialisation -/

/-- The four local variables of `hb_denoise_init` (line 220). -/
structure Strengths (K : Type) where
  /-- spatial strength, luma -/
  spatial_luma : K
  /-- temporal strength, luma -/
  temporal_luma : K
  /-- spatial strength, chroma -/
  spatial_chroma : K
  /-- temporal strength, chroma -/
  temporal_chroma : K

/-- What `sscanf` finds in the settings string: an input failure before the
first conversion, or the list of values converted in order. -/
inductive Scanned (K : Type) where
  | eof : Scanned K
  | conv (vals : List K) : Scanned K

/-- Return value of `sscanf(settings, "%lf:%lf:%lf:%lf", ...)`: the number of
conversions stored, or `EOF`. -/
def sscanf_ret {K : Type} : Scanned K → Int
  | .eof => -1
  | .conv vals => min vals.length 4

/-- The locals after `sscanf` stored its conversions through the pointers
`&spatial_luma, &spatial_chroma, &temporal_luma, &temporal_chroma`. -/
def sscanf_store {K : Type} (l : Strengths K) : Scanned K → Strengths K
  | .eof => l
  | .conv [] => l
  | .conv [a] => { l with spatial_luma := a }
  | .conv [a, b] => { l with spatial_luma := a, spatial_chroma := b }
  | .conv [a, b, c] => { l with spatial_luma := a, spatial_chroma := b, temporal_luma := c }
  | .conv (a :: b :: c :: d :: _) =>
    { spatial_luma := a, spatial_chroma := b, temporal_luma := c, temporal_chroma := d }

/-- The constant `HQDN3D_SPATIAL_LUMA_DEFAULT`. -/
def HQDN3D_SPATIAL_LUMA_DEFAULT {K : Type} [LinearOrderedField K] : K := 4

/-- The constant `HQDN3D_SPATIAL_CHROMA_DEFAULT`. -/
def HQDN3D_SPATIAL_CHROMA_DEFAULT {K : Type} [LinearOrderedField K] : K := 3

/-- The constant `HQDN3D_TEMPORAL_LUMA_DEFAULT`. -/
def HQDN3D_TEMPORAL_LUMA_DEFAULT {K : Type} [LinearOrderedField K] : K := 6

/-- The `switch` of lines 224-262 on the return value `n` of `sscanf`, acting
on the locals `l`; every case ends in `break` and there is no default case.
The arithmetic is the field's: where `spatial_luma` is 0 the source divides
by zero and gets a NaN or an infinity, which the field does not represent. -/
def init_switch {K : Type} [LinearOrderedField K] (n : Int) (l : Strengths K) :
    Strengths K :=
  if n = 0 then
    let spatial_luma : K := HQDN3D_SPATIAL_LUMA_DEFAULT
    let spatial_chroma : K := HQDN3D_SPATIAL_CHROMA_DEFAULT
    let temporal_luma : K := HQDN3D_TEMPORAL_LUMA_DEFAULT
    let temporal_chroma : K := temporal_luma * spatial_chroma / spatial_luma
    { spatial_luma := spatial_luma, spatial_chroma := spatial_chroma,
      temporal_luma := temporal_luma, temporal_chroma := temporal_chroma }
  else if n = 1 then
    let spatial_chroma : K :=
      HQDN3D_SPATIAL_CHROMA_DEFAULT * l.spatial_luma / HQDN3D_SPATIAL_LUMA_DEFAULT
    let temporal_luma : K :=
      HQDN3D_TEMPORAL_LUMA_DEFAULT * l.spatial_luma / HQDN3D_SPATIAL_LUMA_DEFAULT
    let temporal_chroma : K := temporal_luma * spatial_chroma / l.spatial_luma
    { spatial_luma := l.spatial_luma, spatial_chroma := spatial_chroma,
      temporal_luma := temporal_luma, temporal_chroma := temporal_chroma }
  else if n = 2 then
    let temporal_luma : K :=
      HQDN3D_TEMPORAL_LUMA_DEFAULT * l.spatial_luma / HQDN3D_SPATIAL_LUMA_DEFAULT
    let temporal_chroma : K := temporal_luma * l.spatial_chroma / l.spatial_luma
    { spatial_luma := l.spatial_luma, spatial_chroma := l.spatial_chroma,
      temporal_luma := temporal_luma, temporal_chroma := temporal_chroma }
  else if n = 3 then
    let temporal_chroma : K := l.temporal_luma * l.spatial_chroma / l.spatial_luma
    { l with temporal_chroma := temporal_chroma }
  else l

/-- The four strengths that `hb_denoise_init` hands to the table builder.
`locals` is the indeterminate content of the four uninitialised locals on
entry; `settings = none` is the null pointer `filter->settings`. -/
def init_strengths {K : Type} [LinearOrderedField K] (locals : Strengths K)
    (settings : Option (Scanned K)) : Strengths K :=
  match settings with
  | none => locals
  | some s => init_switch (sscanf_ret s) (sscanf_store locals s)

/-- The private data of the filter (`struct hb_filter_private_s`). -/
structure Private where
  /-- the four coefficient tables, indexed `0..3` -/
  hqdn3d_coef : Nat → Coef
  /-- row accumulator, null until first use -/
  hqdn3d_line : Option Buf
  /-- previous-frame buffers of planes `0..2`, null until first use -/
  hqdn3d_frame : Nat → Option Buf

/-- The function `hb_denoise_init`: returns the result code and the private
data; the tables are built in zero-filled (`calloc`) memory. -/
def hb_denoise_init {K : Type} [LinearOrderedField K] [FloorRing K] (m : Libm K)
    (locals : Strengths K) (settings : Option (Scanned K)) : Int × Private :=
  let s := init_strengths locals settings
  let zero : Coef := fun _ => 0
  let pv : Private :=
    { hqdn3d_coef := fun k =>
        if k = 0 then hqdn3d_precalc_coef m zero s.spatial_luma
        else if k = 1 then hqdn3d_precalc_coef m zero s.temporal_luma
        else if k = 2 then hqdn3d_precalc_coef m zero s.spatial_chroma
        else if k = 3 then hqdn3d_precalc_coef m zero s.temporal_chroma
        else zero,
      hqdn3d_line := none,
      hqdn3d_frame := fun _ => none }
  (0, pv)

/-! ## Frame processing -/

/-- Modelled from the spec: the stage result codes of `hb.h`, which is not
among the sources: a normal frame "produced one output frame"
(`HB_FILTER_OK`), the end-of-stream marker "no more output will follow"
(`HB_FILTER_DONE`). -/
inductive FilterStatus where
  | HB_FILTER_OK : FilterStatus
  | HB_FILTER_DONE : FilterStatus

/-- Modelled from the spec: one plane of the frame object of `hb.h`, which is
not among the sources: sample data, row stride and height. -/
structure PlaneBuf where
  /-- the samples -/
  data : Buf
  /-- row stride -/
  stride : Nat
  /-- number of rows -/
  height : Nat

/-- Modelled from the spec: the frame object `hb_buffer_t` of `hb.h`, which is
not among the sources, as far as `hb_denoise_work` uses it: payload size,
planes and frame metadata `s`. -/
structure HbBuffer where
  /-- payload size -/
  size : Int
  /-- the planes, indexed `0..2` -/
  plane : Nat → PlaneBuf
  /-- timing and other metadata, copied as a whole -/
  s : Nat

/-- The state threaded through the loop over the planes in `hb_denoise_work`. -/
structure WorkState where
  /-- row accumulator `pv->hqdn3d_line` -/
  line : Buf
  /-- previous-frame pointers `pv->hqdn3d_frame` -/
  frame : Nat → Option Buf
  /-- planes of the output buffer -/
  out_plane : Nat → PlaneBuf

/-- Body of the loop of lines 330-340 for plane `c`. -/
def work_plane (coef : Nat → Coef) (inb : HbBuffer) (st : WorkState) (c : Nat) :
    WorkState :=
  let r := hqdn3d_denoise (inb.plane c).data (st.out_plane c).data st.line (st.frame c)
    (inb.plane c).stride (inb.plane c).height
    (coef (if c ≠ 0 then 2 else 0)) (coef (if c ≠ 0 then 3 else 1))
  { line := r.line_ant,
    frame := Function.update st.frame c (some r.frame_ant),
    out_plane := Function.update st.out_plane c
      { st.out_plane c with data := r.frame_dst } }

/-- What `hb_denoise_work` leaves behind: result code, `*buf_in`, `*buf_out`
and the private data. -/
structure WorkResult where
  /-- the result code -/
  ret : FilterStatus
  /-- the pointer `*buf_in` on return -/
  buf_in : Option HbBuffer
  /-- the pointer `*buf_out` on return -/
  buf_out : Option HbBuffer
  /-- the private data on return -/
  pv : Private

/-- The function `hb_denoise_work`.  `out0` is the buffer that
`hb_video_buffer_init` returns and `line0` the content of a freshly allocated
row accumulator; the subtitle list moved by `hb_buffer_move_subs` is not
represented. -/
def hb_denoise_work (pv : Private) (inb : HbBuffer) (out0 : HbBuffer) (line0 : Buf) :
    WorkResult :=
  if inb.size ≤ 0 then
    { ret := FilterStatus.HB_FILTER_DONE, buf_in := none, buf_out := some inb, pv := pv }
  else
    let line : Buf :=
      match pv.hqdn3d_line with
      | none => line0
      | some l => l
    let st := (List.range 3).foldl (work_plane pv.hqdn3d_coef inb)
      { line := line, frame := pv.hqdn3d_frame, out_plane := out0.plane }
    { ret := FilterStatus.HB_FILTER_OK,
      buf_in := some inb,
      buf_out := some { out0 with plane := st.out_plane, s := inb.s },
      pv := { pv with hqdn3d_line := some st.line, hqdn3d_frame := st.frame } }

/-! ## Properties of tables -/

/-- Every difference entry lies between 0 and the quantized difference
`4096*i` it stands for. -/
def entries_bounded (ct : Coef) : Prop :=
  ∀ i : Int, -4080 ≤ i → i ≤ 4080 →
    (0 ≤ i → 0 ≤ ct (4096 + i) ∧ ct (4096 + i) ≤ 4096 * i) ∧
    (i ≤ 0 → 4096 * i ≤ ct (4096 + i) ∧ ct (4096 + i) ≤ 0)

/-! ## Loops over `List.range` -/

theorem foldl_range_succ {α : Type} (f : α → Nat → α) (s : α) (n : Nat) :
    (List.range (n + 1)).foldl f s = f ((List.range n).foldl f s) n := by
  rw [List.range_succ, List.foldl_append]
  rfl

/-- A row-by-row scan of a `w`-wide grid visits the offsets `0 .. h*w-1` in order. -/
theorem foldl_rows {α : Type} (f : α → Nat → α) (w h : Nat) (s : α) :
    (List.range h).foldl
      (fun st y => (List.range w).foldl (fun a x => f a (y * w + x)) st) s
      = (List.range (h * w)).foldl f s := by
  induction h with
  | zero => simp
  | succ n ih =>
    rw [foldl_range_succ, ih, Nat.succ_mul, List.range_add, List.foldl_append,
      List.foldl_map]

/-! ## The lowpass primitive -/

theorem shiftRight12 (z : Int) : z >>> (12 : Nat) = z / 4096 := by
  rw [Int.shiftRight_eq_div_pow]
  norm_num

theorem lowpass_index_self (x : Nat) : lowpass_index x x = 4096 := by
  simp only [lowpass_index, i32, shiftRight12]
  omega

theorem u32_of_lt (x : Nat) (hx : x < 2 ^ 32) : u32 (x : Int) = x := by
  simp only [u32]
  omega

/-- With a zero entry at the midpoint, blending a value with itself returns it. -/
theorem lowpass_self (ct : Coef) (h0 : ct 4096 = 0) (x : Nat) (hx : x < 2 ^ 32) :
    hqdn3d_lowpass_mul x x ct = x := by
  simp only [hqdn3d_lowpass_mul, lowpass_index_self, h0, add_zero]
  exact u32_of_lt x hx

theorem store_ant_shl (v : Nat) (hv : v < 256) : store_ant (v <<< 16) = v <<< 8 := by
  simp only [store_ant, Nat.shiftLeft_eq, Nat.shiftRight_eq_div_pow]
  omega

theorem store_dst_shl (v : Nat) (hv : v < 256) : store_dst (v <<< 16) = v := by
  simp only [store_dst, Nat.shiftLeft_eq, Nat.shiftRight_eq_div_pow]
  omega

/-! ## The coefficient table -/

section Table

variable {K : Type} [LinearOrderedField K] [FloorRing K]

theorem precalc_fold_apply (m : Libm K) (ct : Coef) (t : K) (n : Nat) (k : Int) :
    (List.range n).foldl (fun (c : Coef) (j : Nat) => precalc_store m t c ((j : Int) - 255 * 16)) ct k
      = if 16 ≤ k ∧ k < 16 + (n : Int) then precalc_entry m t (k - 4096) else ct k := by
  induction n with
  | zero =>
    have h0 : ¬ (16 ≤ k ∧ k < 16 + ((0 : Nat) : Int)) := by omega
    rw [if_neg h0]
    rfl
  | succ n ih =>
    rw [foldl_range_succ, precalc_store]
    by_cases hk : k = 16 * 256 + ((n : Int) - 255 * 16)
    · have h1 : 16 ≤ k ∧ k < 16 + ((n + 1 : Nat) : Int) := by
        push_cast
        omega
      have h2 : (n : Int) - 255 * 16 = k - 4096 := by omega
      rw [if_pos h1, hk, Function.update_same]
      congr 1
      omega
    · rw [Function.update_noteq hk, ih]
      by_cases h3 : 16 ≤ k ∧ k < 16 + (n : Int)
      · have h4 : 16 ≤ k ∧ k < 16 + ((n + 1 : Nat) : Int) := by
          push_cast
          omega
        rw [if_pos h3, if_pos h4]
      · have h4 : ¬ (16 ≤ k ∧ k < 16 + ((n + 1 : Nat) : Int)) := by
          push_cast
          omega
        rw [if_neg h3, if_neg h4]

/-- The loop writes the entries `16 .. 8176` and nothing else. -/
theorem precalc_loop_apply (m : Libm K) (ct : Coef) (t : K) (k : Int) :
    precalc_loop m ct t k
      = if 16 ≤ k ∧ k ≤ 8176 then precalc_entry m t (k - 4096) else ct k := by
  rw [precalc_loop, precalc_fold_apply]
  by_cases h : 16 ≤ k ∧ k ≤ 8176
  · have h2 : 16 ≤ k ∧ k < 16 + ((2 * (255 * 16) + 1 : Nat) : Int) := by
      push_cast
      omega
    rw [if_pos h, if_pos h2]
  · have h2 : ¬ (16 ≤ k ∧ k < 16 + ((2 * (255 * 16) + 1 : Nat) : Int)) := by
      push_cast
      omega
    rw [if_neg h, if_neg h2]

theorem precalc_coef_apply (m : Libm K) (ct : Coef) (t : K) (k : Int)
    (h : 16 ≤ k ∧ k ≤ 8176) :
    hqdn3d_precalc_coef m ct t k = precalc_entry m t (k - 4096) := by
  have hk : k ≠ 0 := by omega
  rw [hqdn3d_precalc_coef, Function.update_noteq hk, precalc_loop_apply, if_pos h]

theorem precalc_coef_zero (m : Libm K) (ct : Coef) (t : K) :
    hqdn3d_precalc_coef m ct t 0 = if t ≠ 0 then 1 else 0 := by
  rw [hqdn3d_precalc_coef, Function.update_same]

theorem precalc_entry_zero (m : Libm K) (t : K) : precalc_entry m t 0 = 0 := by
  simp only [precalc_entry, precalc_c, Int.cast_zero, mul_zero, zero_div, lt_irrefl,
    if_false, zero_add, truncToInt]
  have h : ¬ ((1 : K) / 2 < 0) := by norm_num
  rw [if_neg h, Int.floor_eq_iff]
  norm_num

/-- The entry for a zero difference is zero, whatever the threshold. -/
theorem precalc_coef_mid (m : Libm K) (ct : Coef) (t : K) :
    hqdn3d_precalc_coef m ct t 4096 = 0 := by
  rw [precalc_coef_apply m ct t 4096 (by omega)]
  exact precalc_entry_zero m t

end Table

/-! ## The temporal pass and the seeding loop, pointwise -/

theorem temporal_px_after (src dst ant : Buf) (temporal : Coef) (n : Nat) :
    temporal_px src temporal (temporal_after src dst ant temporal n) n
      = temporal_after src dst ant temporal (n + 1) := by
  simp only [temporal_px, temporal_after, lt_irrefl, if_false, TState.mk.injEq]
  constructor <;>
  · funext p
    by_cases hp : p = n
    · subst hp
      simp
    · rw [Function.update_noteq hp]
      by_cases h1 : p < n
      · have h2 : p < n + 1 := by omega
        simp [h1, h2]
      · have h2 : ¬ p < n + 1 := by omega
        simp [h1, h2]

theorem temporal_fold_after (src dst ant : Buf) (temporal : Coef) (n : Nat) :
    (List.range n).foldl (temporal_px src temporal) ⟨dst, ant⟩
      = temporal_after src dst ant temporal n := by
  induction n with
  | zero => simp [temporal_after]
  | succ n ih => rw [foldl_range_succ, ih, temporal_px_after]

/-- Closed form of `hqdn3d_denoise_temporal`: every offset below `h*w` is
blended against its own previous-frame entry, nothing else is touched. -/
theorem denoise_temporal_eq (src dst ant : Buf) (w h : Nat) (temporal : Coef) :
    hqdn3d_denoise_temporal src dst ant w h temporal
      = temporal_after src dst ant temporal (h * w) := by
  rw [hqdn3d_denoise_temporal, foldl_rows (temporal_px src temporal) w h,
    temporal_fold_after]

theorem seed_fold_apply (src : Buf) (n p : Nat) :
    (List.range n).foldl
      (fun (f : Buf) (q : Nat) => Function.update f q ((src q <<< 8) % 2 ^ 16))
      (fun _ => 0) p
      = if p < n then (src p <<< 8) % 2 ^ 16 else 0 := by
  induction n with
  | zero => simp
  | succ n ih =>
    rw [foldl_range_succ]
    by_cases hp : p = n
    · subst hp
      simp
    · rw [Function.update_noteq hp, ih]
      by_cases h1 : p < n
      · have h2 : p < n + 1 := by omega
        simp [h1, h2]
      · have h2 : ¬ p < n + 1 := by omega
        simp [h1, h2]

/-- Closed form of the seeding loop. -/
theorem seed_frame_ant_apply (src : Buf) (w h p : Nat) :
    seed_frame_ant src w h p = if p < h * w then (src p <<< 8) % 2 ^ 16 else 0 := by
  rw [seed_frame_ant,
    foldl_rows (fun (f : Buf) (q : Nat) => Function.update f q ((src q <<< 8) % 2 ^ 16)) w h,
    seed_fold_apply]

/-! ## The spatial pass in closed form -/

theorem spatial_row0_step (src dst line ant : Buf) (w : Nat) (sp tp : Coef) (k : Nat)
    (hk : k < w) :
    spatial_row0_px src sp tp
        (spatial_after src dst line ant w sp tp 0 k (rowH src sp k)) k
      = spatial_after src dst line ant w sp tp 0 (k + 1) (rowH src sp (k + 1)) := by
  have hdiv : k / w = 0 := Nat.div_eq_of_lt hk
  have hmod : k % w = k := Nat.mod_eq_of_lt hk
  simp only [spatial_row0_px, spatial_out, spatial_after, SState.mk.injEq, rowH,
    Nat.zero_mul, Nat.zero_add, lt_irrefl, if_false, false_and, and_true]
  refine ⟨?_, ?_, ?_⟩
  · funext x
    by_cases hx : x = k
    · subst hx
      simp [spatialV, rowH]
    · rw [Function.update_noteq hx]
      by_cases h1 : x < k
      · have h2 : x < k + 1 := by omega
        simp [h1, h2]
      · have h2 : ¬ x < k + 1 := by omega
        simp [h1, h2]
  · funext p
    by_cases hp : p = k
    · subst hp
      simp [spatial_tmp, hdiv, hmod, spatialV, rowH]
    · rw [Function.update_noteq hp]
      by_cases h1 : p < k
      · have h2 : p < k + 1 := by omega
        simp [h1, h2]
      · have h2 : ¬ p < k + 1 := by omega
        simp [h1, h2]
  · funext p
    by_cases hp : p = k
    · subst hp
      simp [spatial_tmp, hdiv, hmod, spatialV, rowH]
    · rw [Function.update_noteq hp]
      by_cases h1 : p < k
      · have h2 : p < k + 1 := by omega
        simp [h1, h2]
      · have h2 : ¬ p < k + 1 := by omega
        simp [h1, h2]

theorem spatial_row0_fold (src dst line ant : Buf) (w : Nat) (sp tp : Coef) (k : Nat)
    (hk : k ≤ w) :
    (List.range k).foldl (spatial_row0_px src sp tp) ⟨line, ant, dst, src 0 <<< 16⟩
      = spatial_after src dst line ant w sp tp 0 k (rowH src sp k) := by
  induction k with
  | zero => simp [spatial_after, rowH]
  | succ k ih =>
    rw [foldl_range_succ, ih (by omega), spatial_row0_step src dst line ant w sp tp k (by omega)]

theorem offset_div (w y k : Nat) (hk : k < w) : (y * w + k) / w = y := by
  rw [Nat.add_comm, Nat.add_mul_div_right _ _ (by omega), Nat.div_eq_of_lt hk, Nat.zero_add]

theorem offset_mod (w y k : Nat) (hk : k < w) : (y * w + k) % w = k := by
  rw [Nat.add_comm, Nat.add_mul_mod_self_right, Nat.mod_eq_of_lt hk]

theorem spatial_inner_step (src dst line ant : Buf) (w : Nat) (sp tp : Coef) (y k : Nat)
    (hk : k < w) :
    spatial_inner_px src sp tp w (y + 1)
        (spatial_after src dst line ant w sp tp (y + 1) k (rowP src sp w (y + 1) k)) k
      = spatial_after src dst line ant w sp tp (y + 1) (k + 1)
          (rowP src sp w (y + 1) (k + 1)) := by
  have hdiv := offset_div w (y + 1) k hk
  have hmod := offset_mod w (y + 1) k hk
  simp only [spatial_inner_px, spatial_out, spatial_after, SState.mk.injEq, rowP,
    lt_irrefl, if_false, and_true, Nat.add_sub_cancel, Nat.succ_pos, true_and, hk, if_true]
  refine ⟨?_, ?_, ?_⟩
  · funext x
    by_cases hx : x = k
    · subst hx
      simp [spatialV]
    · rw [Function.update_noteq hx]
      by_cases h1 : x < k
      · have h2 : x < k + 1 := by omega
        simp [h1, h2]
      · have h2 : ¬ x < k + 1 := by omega
        simp [h1, h2]
  · funext p
    by_cases hp : p = (y + 1) * w + k
    · subst hp
      simp [spatial_tmp, hdiv, hmod, spatialV]
    · rw [Function.update_noteq hp]
      by_cases h1 : p < (y + 1) * w + k
      · have h2 : p < (y + 1) * w + (k + 1) := by omega
        simp [h1, h2]
      · have h2 : ¬ p < (y + 1) * w + (k + 1) := by omega
        simp [h1, h2]
  · funext p
    by_cases hp : p = (y + 1) * w + k
    · subst hp
      simp [spatial_tmp, hdiv, hmod, spatialV]
    · rw [Function.update_noteq hp]
      by_cases h1 : p < (y + 1) * w + k
      · have h2 : p < (y + 1) * w + (k + 1) := by omega
        simp [h1, h2]
      · have h2 : ¬ p < (y + 1) * w + (k + 1) := by omega
        simp [h1, h2]

theorem spatial_inner_fold (src dst line ant : Buf) (w : Nat) (sp tp : Coef) (y k : Nat)
    (hk : k ≤ w) :
    (List.range k).foldl (spatial_inner_px src sp tp w (y + 1))
        (spatial_after src dst line ant w sp tp (y + 1) 0 (rowP src sp w (y + 1) 0))
      = spatial_after src dst line ant w sp tp (y + 1) k (rowP src sp w (y + 1) k) := by
  induction k with
  | zero => simp
  | succ k ih =>
    rw [foldl_range_succ, ih (by omega), spatial_inner_step src dst line ant w sp tp y k (by omega)]

theorem spatial_last_step (src dst line ant : Buf) (w : Nat) (sp tp : Coef) (y k : Nat)
    (hk : k + 1 = w) :
    spatial_last_px sp tp w (y + 1)
        (spatial_after src dst line ant w sp tp (y + 1) k (rowP src sp w (y + 1) k)) k
      = spatial_after src dst line ant w sp tp (y + 2) 0 (rowP src sp w (y + 1) k) := by
  have hkw : k < w := by omega
  have hdiv := offset_div w (y + 1) k hkw
  have hmod := offset_mod w (y + 1) k hkw
  simp only [spatial_last_px, spatial_out, spatial_after, SState.mk.injEq,
    lt_irrefl, if_false, and_true, Nat.add_sub_cancel, Nat.succ_pos, true_and, hkw, if_true]
  refine ⟨?_, ?_, ?_⟩
  · funext x
    by_cases hx : x = k
    · subst hx
      simp [spatialV, hkw]
    · rw [Function.update_noteq hx]
      by_cases h1 : x < k
      · have h2 : x < w := by omega
        simp [h1, h2]
      · have h2 : ¬ x < w := by omega
        simp [h1, h2]
  · funext p
    by_cases hp : p = (y + 1) * w + k
    · subst hp
      have h3 : (y + 1) * w + k < (y + 2) * w + 0 := by
        have : (y + 2) * w = (y + 1) * w + w := by ring
        omega
      simp only [Function.update_same, if_pos h3]
      simp [spatial_tmp, hdiv, hmod, spatialV]
    · rw [Function.update_noteq hp]
      have h4 : (y + 2) * w = (y + 1) * w + w := by ring
      by_cases h1 : p < (y + 1) * w + k
      · have h2 : p < (y + 2) * w + 0 := by omega
        simp only [if_pos h1, if_pos h2]
      · have h2 : ¬ p < (y + 2) * w + 0 := by omega
        simp only [if_neg h1, if_neg h2]
  · funext p
    by_cases hp : p = (y + 1) * w + k
    · subst hp
      have h3 : (y + 1) * w + k < (y + 2) * w + 0 := by
        have : (y + 2) * w = (y + 1) * w + w := by ring
        omega
      simp only [Function.update_same, if_pos h3]
      simp [spatial_tmp, hdiv, hmod, spatialV]
    · rw [Function.update_noteq hp]
      have h4 : (y + 2) * w = (y + 1) * w + w := by ring
      by_cases h1 : p < (y + 1) * w + k
      · have h2 : p < (y + 2) * w + 0 := by omega
        simp only [if_pos h1, if_pos h2]
      · have h2 : ¬ p < (y + 2) * w + 0 := by omega
        simp only [if_neg h1, if_neg h2]

theorem spatial_row_step (src dst line ant : Buf) (w : Nat) (sp tp : Coef) (y pa : Nat)
    (hw : 1 ≤ w) :
    spatial_row src sp tp w (spatial_after src dst line ant w sp tp (y + 1) 0 pa) (y + 1)
      = spatial_after src dst line ant w sp tp (y + 2) 0
          (rowP src sp w (y + 1) (w - 1)) := by
  have h1 : ({ spatial_after src dst line ant w sp tp (y + 1) 0 pa with
      pixel_ant := src ((y + 1) * w) <<< 16 } : SState)
      = spatial_after src dst line ant w sp tp (y + 1) 0 (rowP src sp w (y + 1) 0) := rfl
  simp only [spatial_row]
  rw [h1, spatial_inner_fold src dst line ant w sp tp y (w - 1) (by omega),
    spatial_last_step src dst line ant w sp tp y (w - 1) (by omega)]

theorem spatial_after_row0 (src dst line ant : Buf) (w : Nat) (sp tp : Coef) (pa : Nat) :
    spatial_after src dst line ant w sp tp 0 w pa
      = spatial_after src dst line ant w sp tp 1 0 pa := by
  simp only [spatial_after, SState.mk.injEq, and_true, Nat.zero_mul, Nat.zero_add,
    Nat.one_mul, Nat.add_zero, Nat.not_lt_zero, if_false, lt_irrefl, false_and,
    Nat.lt_one_iff, Nat.sub_self, true_and]

theorem spatial_rows_fold (src dst line ant : Buf) (w : Nat) (sp tp : Coef) (pa : Nat)
    (hw : 1 ≤ w) (n : Nat) :
    ∃ pb, (List.range n).foldl (fun st i => spatial_row src sp tp w st (i + 1))
        (spatial_after src dst line ant w sp tp 1 0 pa)
      = spatial_after src dst line ant w sp tp (n + 1) 0 pb := by
  induction n with
  | zero => exact ⟨pa, by simp⟩
  | succ n ih =>
    obtain ⟨pb, hpb⟩ := ih
    refine ⟨rowP src sp w (n + 1) (w - 1), ?_⟩
    rw [foldl_range_succ, hpb, spatial_row_step src dst line ant w sp tp n pb hw]

/-- Closed form of `hqdn3d_denoise_spatial` on a plane with at least one
column and one row. -/
theorem denoise_spatial_eq (src dst line ant : Buf) (w h : Nat) (sp tp : Coef)
    (hw : 1 ≤ w) (hh : 1 ≤ h) :
    ∃ pb, hqdn3d_denoise_spatial src dst line ant w h sp tp
      = spatial_after src dst line ant w sp tp h 0 pb := by
  obtain ⟨pb, hpb⟩ := spatial_rows_fold src dst line ant w sp tp (rowH src sp w) hw (h - 1)
  refine ⟨pb, ?_⟩
  simp only [hqdn3d_denoise_spatial]
  rw [spatial_row0_fold src dst line ant w sp tp w (le_refl w), spatial_after_row0, hpb]
  have h1 : h - 1 + 1 = h := by omega
  rw [h1]

theorem denoise_spatial_dst (src dst line ant : Buf) (w h : Nat) (sp tp : Coef)
    (hw : 1 ≤ w) (hh : 1 ≤ h) (p : Nat) :
    (hqdn3d_denoise_spatial src dst line ant w h sp tp).frame_dst p
      = if p < h * w then store_dst (spatial_tmp src ant w sp tp p) else dst p := by
  obtain ⟨pb, hpb⟩ := denoise_spatial_eq src dst line ant w h sp tp hw hh
  rw [hpb]
  simp [spatial_after]

theorem denoise_spatial_ant (src dst line ant : Buf) (w h : Nat) (sp tp : Coef)
    (hw : 1 ≤ w) (hh : 1 ≤ h) (p : Nat) :
    (hqdn3d_denoise_spatial src dst line ant w h sp tp).frame_ant p
      = if p < h * w then store_ant (spatial_tmp src ant w sp tp p) else ant p := by
  obtain ⟨pb, hpb⟩ := denoise_spatial_eq src dst line ant w h sp tp hw hh
  rw [hpb]
  simp [spatial_after]

theorem denoise_spatial_line (src dst line ant : Buf) (w h : Nat) (sp tp : Coef)
    (hw : 1 ≤ w) (hh : 1 ≤ h) (x : Nat) :
    (hqdn3d_denoise_spatial src dst line ant w h sp tp).line_ant x
      = if x < w then spatialV src sp w (h - 1) x else line x := by
  obtain ⟨pb, hpb⟩ := denoise_spatial_eq src dst line ant w h sp tp hw hh
  have h0 : 0 < h := by omega
  rw [hpb]
  simp [spatial_after, h0]

/-! ## The plane driver -/

/-- The previous-frame buffer used by `hqdn3d_denoise`: the given one, or the
freshly seeded one. -/
theorem denoise_eq_temporal (src dst line : Buf) (fa : Option Buf) (w h : Nat)
    (sp tp : Coef) (hsp : sp 0 = 0) :
    hqdn3d_denoise src dst line fa w h sp tp
      = ⟨(hqdn3d_denoise_temporal src dst
            (match fa with
              | none => seed_frame_ant src w h
              | some a => a) w h tp).frame_dst,
          line,
          (hqdn3d_denoise_temporal src dst
            (match fa with
              | none => seed_frame_ant src w h
              | some a => a) w h tp).frame_ant⟩ := by
  simp [hqdn3d_denoise, hsp]

theorem denoise_eq_spatial (src dst line : Buf) (fa : Option Buf) (w h : Nat)
    (sp tp : Coef) (hsp : sp 0 ≠ 0) :
    hqdn3d_denoise src dst line fa w h sp tp
      = ⟨(hqdn3d_denoise_spatial src dst line
            (match fa with
              | none => seed_frame_ant src w h
              | some a => a) w h sp tp).frame_dst,
          (hqdn3d_denoise_spatial src dst line
            (match fa with
              | none => seed_frame_ant src w h
              | some a => a) w h sp tp).line_ant,
          (hqdn3d_denoise_spatial src dst line
            (match fa with
              | none => seed_frame_ant src w h
              | some a => a) w h sp tp).frame_ant⟩ := by
  simp [hqdn3d_denoise, hsp]

theorem seed_eq_shl (src : Buf) (w h p : Nat) (hp : p < w * h) (hs : src p < 256) :
    seed_frame_ant src w h p = src p <<< 8 := by
  have hp2 : p < h * w := by rw [Nat.mul_comm]; exact hp
  rw [seed_frame_ant_apply, if_pos hp2]
  simp only [Nat.shiftLeft_eq]
  omega

theorem shl8_shl8 (v : Nat) : (v <<< 8) <<< 8 = v <<< 16 := by
  simp only [Nat.shiftLeft_eq]
  omega

theorem shl16_lt (v : Nat) (hv : v < 256) : v <<< 16 < 2 ^ 32 := by
  simp only [Nat.shiftLeft_eq]
  omega

/-- A raw sample blended against a previous-frame entry holding the same
sample gives the sample back, at both output precisions. -/
theorem temporal_same (tp : Coef) (h0 : tp 4096 = 0) (v : Nat) (hv : v < 256) :
    store_dst (hqdn3d_lowpass_mul ((v <<< 8) <<< 8) (v <<< 16) tp) = v ∧
    store_ant (hqdn3d_lowpass_mul ((v <<< 8) <<< 8) (v <<< 16) tp) = v <<< 8 := by
  rw [shl8_shl8, lowpass_self tp h0 _ (shl16_lt v hv)]
  exact ⟨store_dst_shl v hv, store_ant_shl v hv⟩

/-- Temporal-only pass on a plane whose previous-frame buffer is absent or
holds the same frame: the frame is returned and the buffer holds it again. -/
theorem denoise_temporal_same (src dst line : Buf) (fa : Option Buf) (w h : Nat)
    (sp tp : Coef) (hsp : sp 0 = 0) (h0 : tp 4096 = 0)
    (hsrc : ∀ p, p < w * h → src p < 256)
    (hfa : ∀ a, fa = some a → ∀ p, p < w * h → a p = src p <<< 8)
    (p : Nat) (hp : p < w * h) :
    (hqdn3d_denoise src dst line fa w h sp tp).frame_dst p = src p ∧
    (hqdn3d_denoise src dst line fa w h sp tp).frame_ant p = src p <<< 8 := by
  have hp2 : p < h * w := by rw [Nat.mul_comm]; exact hp
  have hant : (match fa with
      | none => seed_frame_ant src w h
      | some a => a) p = src p <<< 8 := by
    cases fa with
    | none => exact seed_eq_shl src w h p hp (hsrc p hp)
    | some a => exact hfa a rfl p hp
  rw [denoise_eq_temporal src dst line fa w h sp tp hsp, denoise_temporal_eq]
  simp only [temporal_after, if_pos hp2, hant]
  exact temporal_same tp h0 (src p) (hsrc p hp)

/-! ## Claims -/

/-- C1. First frame, spatial filter disabled: with a spatial table whose
slot 0 is 0 and a temporal table built by `hqdn3d_precalc_coef` from any
threshold, a call of `hqdn3d_denoise` on a plane of 8-bit samples without a
previous-frame buffer writes `dst[p] = src[p]` and leaves `src[p]*256` in the
new previous-frame buffer at every offset `p < w*h`; a second call with the
same frame returns it unchanged again. -/
theorem c1_first_frame_temporal_only {K : Type} [LinearOrderedField K] [FloorRing K]
    (m : Libm K) (ct0 : Coef) (dist25 : K) (w h : Nat) (src dst dst2 line : Buf)
    (spatial : Coef) (hw : 1 ≤ w) (hh : 1 ≤ h)
    (hsrc : ∀ p, p < w * h → src p < 256) (hsp : spatial 0 = 0)
    (p : Nat) (hp : p < w * h) :
    (hqdn3d_denoise src dst line none w h spatial
        (hqdn3d_precalc_coef m ct0 dist25)).frame_dst p = src p ∧
    (hqdn3d_denoise src dst line none w h spatial
        (hqdn3d_precalc_coef m ct0 dist25)).frame_ant p = src p * 256 ∧
    (hqdn3d_denoise src dst2
        (hqdn3d_denoise src dst line none w h spatial
          (hqdn3d_precalc_coef m ct0 dist25)).line_ant
        (some (hqdn3d_denoise src dst line none w h spatial
          (hqdn3d_precalc_coef m ct0 dist25)).frame_ant)
        w h spatial (hqdn3d_precalc_coef m ct0 dist25)).frame_dst p = src p := by
  have _hwh : 1 ≤ w * h := Nat.mul_pos hw hh
  have h0 := precalc_coef_mid m ct0 dist25
  have h1 := denoise_temporal_same src dst line none w h spatial
    (hqdn3d_precalc_coef m ct0 dist25) hsp h0 hsrc (fun a ha => by cases ha)
  refine ⟨(h1 p hp).1, ?_, ?_⟩
  · rw [(h1 p hp).2, Nat.shiftLeft_eq]
  · exact (denoise_temporal_same src dst2 _ _ w h spatial
      (hqdn3d_precalc_coef m ct0 dist25) hsp h0 hsrc
      (fun a ha q hq => by
        cases ha
        exact (h1 q hq).2) p hp).1

/-- C1, on a 2x2 plane with the real-arithmetic table of threshold 6. -/
theorem c1_first_frame_temporal_only_witness :
    (1 ≤ 2) ∧ (∀ p, p < 2 * 2 → (fun q => 10 * q + 7) p < 256) ∧
    (hqdn3d_denoise (fun q => 10 * q + 7) (fun _ => 0) (fun _ => 0) none 2 2
        (fun _ => 0) (hqdn3d_precalc_coef realLibm (fun _ => 0) 6)).frame_dst 3 = 37 := by
  have hs : ∀ p, p < 2 * 2 → (fun q => 10 * q + 7) p < 256 := by
    intro p hp
    simp only
    omega
  exact ⟨by decide, hs,
    (c1_first_frame_temporal_only realLibm (fun _ => 0) 6 2 2 (fun q => 10 * q + 7)
      (fun _ => 0) (fun _ => 0) (fun _ => 0) (fun _ => 0) (by decide) (by decide) hs rfl
      3 (by decide)).1⟩

/-! ## Constant planes -/

theorem offset_lt (w h y x : Nat) (hy : y < h) (hx : x < w) : y * w + x < w * h := by
  have h1 : (y + 1) * w ≤ h * w := Nat.mul_le_mul_right w hy
  have h2 : (y + 1) * w = y * w + w := Nat.succ_mul y w
  have h3 : w * h = h * w := Nat.mul_comm w h
  omega

theorem rowH_const (src : Buf) (sp : Coef) (w h v : Nat) (h0 : sp 4096 = 0)
    (hv : v < 256) (hw : 1 ≤ w) (hh : 1 ≤ h) (hsrc : ∀ p, p < w * h → src p = v)
    (k : Nat) (hk : k ≤ w) : rowH src sp k = v <<< 16 := by
  induction k with
  | zero =>
    have h1 : 0 < w * h := Nat.mul_pos hw hh
    simp only [rowH, hsrc 0 h1]
  | succ k ih =>
    have h1 : k < w * h := by
      have := offset_lt w h 0 k hh (by omega)
      omega
    simp only [rowH, ih (by omega), hsrc k h1]
    exact lowpass_self sp h0 _ (shl16_lt v hv)

theorem rowP_const (src : Buf) (sp : Coef) (w h v : Nat) (h0 : sp 4096 = 0)
    (hv : v < 256) (hsrc : ∀ p, p < w * h → src p = v)
    (y : Nat) (hy : y < h) (x : Nat) (hx : x < w) : rowP src sp w y x = v <<< 16 := by
  induction x with
  | zero =>
    have h1 := offset_lt w h y 0 hy hx
    simp only [rowP, hsrc (y * w) (by omega)]
  | succ x ih =>
    have h1 := offset_lt w h y (x + 1) hy hx
    simp only [rowP, ih (by omega), hsrc _ h1]
    exact lowpass_self sp h0 _ (shl16_lt v hv)

theorem spatialV_const (src : Buf) (sp : Coef) (w h v : Nat) (h0 : sp 4096 = 0)
    (hv : v < 256) (hw : 1 ≤ w) (hh : 1 ≤ h) (hsrc : ∀ p, p < w * h → src p = v)
    (y : Nat) (hy : y < h) (x : Nat) (hx : x < w) :
    spatialV src sp w y x = v <<< 16 := by
  induction y with
  | zero =>
    simp only [spatialV]
    exact rowH_const src sp w h v h0 hv hw hh hsrc (x + 1) (by omega)
  | succ y ih =>
    simp only [spatialV, ih (by omega), rowP_const src sp w h v h0 hv hsrc (y + 1) hy x hx]
    exact lowpass_self sp h0 _ (shl16_lt v hv)

/-- One call of `hqdn3d_denoise` on a constant plane whose previous-frame
buffer is absent or holds the same constant. -/
theorem denoise_const (src dst line : Buf) (fa : Option Buf) (w h v : Nat)
    (sp tp : Coef) (hs0 : sp 4096 = 0) (ht0 : tp 4096 = 0)
    (hv : v < 256) (hw : 1 ≤ w) (hh : 1 ≤ h) (hsrc : ∀ p, p < w * h → src p = v)
    (hfa : ∀ a, fa = some a → ∀ p, p < w * h → a p = v <<< 8)
    (p : Nat) (hp : p < w * h) :
    (hqdn3d_denoise src dst line fa w h sp tp).frame_dst p = v ∧
    (hqdn3d_denoise src dst line fa w h sp tp).frame_ant p = v <<< 8 := by
  have hsrc2 : ∀ q, q < w * h → src q < 256 := fun q hq => by rw [hsrc q hq]; exact hv
  by_cases hsp : sp 0 = 0
  · have h1 := denoise_temporal_same src dst line fa w h sp tp hsp ht0 hsrc2
      (fun a ha q hq => by rw [hfa a ha q hq, hsrc q hq]) p hp
    rw [hsrc p hp] at h1
    exact h1
  · have hp2 : p < h * w := by rw [Nat.mul_comm]; exact hp
    have hant : (match fa with
        | none => seed_frame_ant src w h
        | some a => a) p = v <<< 8 := by
      cases fa with
      | none =>
        have := seed_eq_shl src w h p hp (hsrc2 p hp)
        rw [hsrc p hp] at this
        exact this
      | some a => exact hfa a rfl p hp
    have hV : spatialV src sp w (p / w) (p % w) = v <<< 16 :=
      spatialV_const src sp w h v hs0 hv hw hh hsrc (p / w)
        (Nat.div_lt_of_lt_mul hp) (p % w) (Nat.mod_lt p (by omega))
    rw [denoise_eq_spatial src dst line fa w h sp tp hsp]
    simp only [denoise_spatial_dst _ _ _ _ w h sp tp hw hh,
      denoise_spatial_ant _ _ _ _ w h sp tp hw hh, if_pos hp2, spatial_tmp, hant, hV]
    exact temporal_same tp ht0 v hv

theorem denoise_frames_const (w h v : Nat) (sp tp : Coef) (hs0 : sp 4096 = 0)
    (ht0 : tp 4096 = 0) (hv : v < 256) (hw : 1 ≤ w) (hh : 1 ≤ h) (dst0 : Buf)
    (frames : List Buf) :
    ∀ (line : Buf) (fa : Option Buf),
      (∀ f, f ∈ frames → ∀ p, p < w * h → f p = v) →
      (∀ a, fa = some a → ∀ p, p < w * h → a p = v <<< 8) →
      (denoise_frames w h sp tp dst0 frames line fa).1.length = frames.length ∧
      ∀ o, o ∈ (denoise_frames w h sp tp dst0 frames line fa).1 →
        ∀ p, p < w * h → o p = v := by
  induction frames with
  | nil =>
    intro line fa _ _
    simp [denoise_frames]
  | cons src rest ih =>
    intro line fa hfr hfa
    have hsrc : ∀ p, p < w * h → src p = v := hfr src (List.mem_cons_self _ _)
    have h1 := denoise_const src dst0 line fa w h v sp tp hs0 ht0 hv hw hh hsrc hfa
    have h2 := ih (hqdn3d_denoise src dst0 line fa w h sp tp).line_ant
      (some (hqdn3d_denoise src dst0 line fa w h sp tp).frame_ant)
      (fun f hf => hfr f (List.mem_cons_of_mem _ hf))
      (fun a ha q hq => by
        cases ha
        exact (h1 q hq).2)
    simp only [denoise_frames, List.length_cons, List.mem_cons]
    refine ⟨by rw [h2.1], ?_⟩
    intro o ho q hq
    rcases ho with ho | ho
    · rw [ho]
      exact (h1 q hq).1
    · exact h2.2 o ho q hq

/-- C2. Constant input gives constant output: with both tables built by
`hqdn3d_precalc_coef` from any thresholds (spatial pass enabled or not),
feeding `n >= 1` frames whose samples all equal `v <= 255` to
`hqdn3d_denoise`, starting without a previous-frame buffer, yields `n` output
planes whose samples all equal `v`. -/
theorem c2_constant_input {K : Type} [LinearOrderedField K] [FloorRing K]
    (m : Libm K) (cs ct : Coef) (ds dt : K) (w h v n : Nat) (dst0 line : Buf)
    (frames : List Buf) (hw : 1 ≤ w) (hh : 1 ≤ h) (hv : v ≤ 255) (hn : 1 ≤ n)
    (hlen : frames.length = n)
    (hconst : ∀ f, f ∈ frames → ∀ p, p < w * h → f p = v) :
    (denoise_frames w h (hqdn3d_precalc_coef m cs ds) (hqdn3d_precalc_coef m ct dt)
        dst0 frames line none).1.length = n ∧
    ∀ o, o ∈ (denoise_frames w h (hqdn3d_precalc_coef m cs ds)
        (hqdn3d_precalc_coef m ct dt) dst0 frames line none).1 →
      ∀ p, p < w * h → o p = v := by
  have _h1 : 1 ≤ n := hn
  have h2 := denoise_frames_const w h v (hqdn3d_precalc_coef m cs ds)
    (hqdn3d_precalc_coef m ct dt) (precalc_coef_mid m cs ds) (precalc_coef_mid m ct dt)
    (by omega) hw hh dst0 frames line none hconst (fun a ha => by cases ha)
  rw [hlen] at h2
  exact h2

/-- C2, on two 2x2 frames of flat gray 128 with the real-arithmetic tables
of thresholds 4 (spatial) and 6 (temporal). -/
theorem c2_constant_input_witness :
    (1 ≤ 2 ∧ 128 ≤ 255 ∧ [(fun _ => 128 : Buf), (fun _ => 128 : Buf)].length = 2) ∧
    ((denoise_frames 2 2 (hqdn3d_precalc_coef realLibm (fun _ => 0) 4)
        (hqdn3d_precalc_coef realLibm (fun _ => 0) 6) (fun _ => 0)
        [(fun _ => 128 : Buf), (fun _ => 128 : Buf)] (fun _ => 0) none).1.length = 2 ∧
    ∀ o, o ∈ (denoise_frames 2 2 (hqdn3d_precalc_coef realLibm (fun _ => 0) 4)
        (hqdn3d_precalc_coef realLibm (fun _ => 0) 6) (fun _ => 0)
        [(fun _ => 128 : Buf), (fun _ => 128 : Buf)] (fun _ => 0) none).1 →
      ∀ p, p < 2 * 2 → o p = 128) :=
  ⟨by decide,
    c2_constant_input realLibm (fun _ => 0) (fun _ => 0) 4 6 2 2 128 2
      (fun _ => 0) (fun _ => 0) [(fun _ => 128 : Buf), (fun _ => 128 : Buf)]
      (by decide) (by decide) (by decide) (by decide) rfl
      (fun f hf p _ => by
        simp only [List.mem_cons, List.mem_singleton, List.not_mem_nil, or_false] at hf
        rcases hf with hf | hf <;> rw [hf])⟩

/-! ## A table in closed form: the threshold with `gamma = 1` -/

theorem gamma_one : precalc_gamma realLibm (255 * (3 / 4 - 1 / 100000)) = 1 := by
  have h1 : (1 : ℝ) - 255 * (3 / 4 - 1 / 100000) / 255 - 1 / 100000 = 1 / 4 := by norm_num
  have h2 : Real.log (1 / 4) ≠ 0 := by
    have := Real.log_neg (by norm_num : (0 : ℝ) < 1 / 4) (by norm_num)
    exact ne_of_lt this
  simp only [precalc_gamma, realLibm, h1]
  exact div_self h2

theorem precalc_c_gamma_one (i : Int) :
    precalc_c realLibm (255 * (3 / 4 - 1 / 100000)) i
      = (1 - ((|i| : Int) : ℝ) / (16 * 255)) * 65536 * (i : ℝ) / 16 := by
  simp only [precalc_c, gamma_one]
  simp only [realLibm, Real.rpow_one]

theorem entry_gamma_one_neg64 :
    precalc_entry realLibm (255 * (3 / 4 - 1 / 100000)) (-64) = -258032 := by
  simp only [precalc_entry, precalc_c_gamma_one, truncToInt]
  norm_num
  rw [Int.ceil_eq_iff]
  norm_num

theorem entry_gamma_one_63 :
    precalc_entry realLibm (255 * (3 / 4 - 1 / 100000)) 63 = 254063 := by
  simp only [precalc_entry, precalc_c_gamma_one, truncToInt]
  norm_num

theorem index_eval_a : lowpass_index 6553600 6815744 = 4032 := by
  simp only [lowpass_index, i32, shiftRight12]
  norm_num

theorem index_eval_b : lowpass_index 6815744 6557712 = 4159 := by
  simp only [lowpass_index, i32, shiftRight12]
  norm_num

theorem spatialV_eval :
    spatialV (fun q => 100 + 4 * q)
      (hqdn3d_precalc_coef realLibm (fun _ => 0) (255 * (3 / 4 - 1 / 100000))) 2 0 1
      = 6557712 := by
  have h0 := precalc_coef_mid realLibm (fun _ => 0) (255 * (3 / 4 - 1 / 100000))
  have h1 : rowH (fun q => 100 + 4 * q)
      (hqdn3d_precalc_coef realLibm (fun _ => 0) (255 * (3 / 4 - 1 / 100000))) 1
      = 6553600 := by
    simp only [rowH]
    exact lowpass_self _ h0 _ (by decide)
  have h2 : ((fun q => 100 + 4 * q) 1 : Nat) <<< 16 = 6815744 := by decide
  simp only [spatialV]
  rw [rowH, h1, h2, hqdn3d_lowpass_mul, index_eval_a,
    precalc_coef_apply realLibm _ _ 4032 (by omega)]
  have h3 : (4032 : Int) - 4096 = -64 := by norm_num
  rw [h3, entry_gamma_one_neg64]
  decide

theorem u32_lt (z : Int) : u32 z < 2 ^ 32 := by
  simp only [u32]
  omega

theorem spatialV_lt (src : Buf) (sp : Coef) (w y x : Nat) :
    spatialV src sp w y x < 2 ^ 32 := by
  cases y with
  | zero => exact u32_lt _
  | succ y => exact u32_lt _

/-- With a zero table entry at the index used, the blend returns `curr`. -/
theorem lowpass_of_entry_zero (ct : Coef) (a b : Nat) (hb : b < 2 ^ 32)
    (h0 : ct (lowpass_index a b) = 0) : hqdn3d_lowpass_mul a b ct = b := by
  simp only [hqdn3d_lowpass_mul, h0, add_zero]
  exact u32_of_lt b hb

/-- First frame through the spatial pass: the output sample at `p` is the
rounded temporal blend of the spatial value against the raw sample. -/
theorem spatial_first_frame_dst (src dst line : Buf) (w h : Nat) (sp tp : Coef)
    (hw : 1 ≤ w) (hh : 1 ≤ h) (hsrc : ∀ p, p < w * h → src p < 256) (hsp : sp 0 ≠ 0)
    (p : Nat) (hp : p < w * h) :
    (hqdn3d_denoise src dst line none w h sp tp).frame_dst p
      = store_dst (hqdn3d_lowpass_mul (src p <<< 16)
          (spatialV src sp w (p / w) (p % w)) tp) := by
  have hp2 : p < h * w := by rw [Nat.mul_comm]; exact hp
  rw [denoise_eq_spatial src dst line none w h sp tp hsp]
  simp only [denoise_spatial_dst _ _ _ _ w h sp tp hw hh, if_pos hp2, spatial_tmp,
    seed_eq_shl src w h p hp (hsrc p hp), shl8_shl8]

/-- C3 fails as stated. On the 2x1 plane `100, 104`, with both tables built
in real arithmetic from the threshold `255*(3/4 - 0.00001)` (for which
`gamma = 1`), the spatial pass is enabled, the row accumulator holds
`S = 6557712` for pixel 1, whose rounding `(S + 0x7FFF) >> 16` is `100`, but
the first output frame has `dst[1] = 104`. -/
theorem c3_counterexample :
    hqdn3d_precalc_coef realLibm (fun _ => 0) (255 * (3 / 4 - 1 / 100000)) 0 ≠ 0 ∧
    (hqdn3d_denoise (fun q => 100 + 4 * q) (fun _ => 0) (fun _ => 0) none 2 1
      (hqdn3d_precalc_coef realLibm (fun _ => 0) (255 * (3 / 4 - 1 / 100000)))
      (hqdn3d_precalc_coef realLibm (fun _ => 0) (255 * (3 / 4 - 1 / 100000)))).line_ant 1
      = 6557712 ∧
    (6557712 + 0x7FFF) >>> 16 = 100 ∧
    (hqdn3d_denoise (fun q => 100 + 4 * q) (fun _ => 0) (fun _ => 0) none 2 1
      (hqdn3d_precalc_coef realLibm (fun _ => 0) (255 * (3 / 4 - 1 / 100000)))
      (hqdn3d_precalc_coef realLibm (fun _ => 0) (255 * (3 / 4 - 1 / 100000)))).frame_dst 1
      = 104 := by
  have hT : (255 * (3 / 4 - 1 / 100000) : ℝ) ≠ 0 := by norm_num
  have hsp : hqdn3d_precalc_coef realLibm (fun _ => 0) (255 * (3 / 4 - 1 / 100000)) 0 ≠ 0 := by
    rw [precalc_coef_zero, if_pos hT]
    exact one_ne_zero
  have hsrc : ∀ p, p < 2 * 1 → (fun q => 100 + 4 * q) p < 256 := by
    intro p hp
    simp only
    omega
  refine ⟨hsp, ?_, by decide, ?_⟩
  · rw [denoise_eq_spatial _ _ _ none 2 1 _ _ hsp]
    simp only [denoise_spatial_line _ _ _ _ 2 1 _ _ (by decide) (by decide)]
    rw [if_pos (by decide)]
    exact spatialV_eval
  · rw [spatial_first_frame_dst _ _ _ 2 1 _ _ (by decide) (by decide) hsrc hsp 1 (by decide)]
    have h1 : (1 : Nat) / 2 = 0 := by decide
    have h2 : (1 : Nat) % 2 = 1 := by decide
    have h3 : ((fun q => 100 + 4 * q) 1 : Nat) <<< 16 = 6815744 := by decide
    rw [h1, h2, spatialV_eval, h3, hqdn3d_lowpass_mul, index_eval_b,
      precalc_coef_apply realLibm _ _ 4159 (by omega)]
    have h4 : (4159 : Int) - 4096 = 63 := by norm_num
    rw [h4, entry_gamma_one_63]
    decide

/-- C3, amended. First frame with the spatial pass enabled, temporal table
built by `hqdn3d_precalc_coef`: with `S[p]` the value of the spatial
recurrence for pixel `p` (the row accumulator holds `S` of the last row on
return), each output sample is the rounded temporal blend of `S[p]` against
the raw sample the buffer was seeded with,
`dst[p] = (Lt(src[p]<<16, S[p]) + 0x7FFF) >> 16`; it is the rounded spatial
value alone wherever the temporal entry used is `0`, in particular wherever
`S[p] = src[p]<<16`. -/
theorem c3_first_frame_spatial {K : Type} [LinearOrderedField K] [FloorRing K]
    (m : Libm K) (ct0 : Coef) (dt : K) (src dst line : Buf) (w h : Nat) (sp : Coef)
    (hw : 1 ≤ w) (hh : 1 ≤ h) (hsrc : ∀ p, p < w * h → src p < 256) (hsp : sp 0 ≠ 0)
    (p : Nat) (hp : p < w * h) :
    (hqdn3d_denoise src dst line none w h sp (hqdn3d_precalc_coef m ct0 dt)).frame_dst p
      = store_dst (hqdn3d_lowpass_mul (src p <<< 16)
          (spatialV src sp w (p / w) (p % w)) (hqdn3d_precalc_coef m ct0 dt)) ∧
    (hqdn3d_precalc_coef m ct0 dt
        (lowpass_index (src p <<< 16) (spatialV src sp w (p / w) (p % w))) = 0 →
      (hqdn3d_denoise src dst line none w h sp (hqdn3d_precalc_coef m ct0 dt)).frame_dst p
        = store_dst (spatialV src sp w (p / w) (p % w))) ∧
    (spatialV src sp w (p / w) (p % w) = src p <<< 16 →
      (hqdn3d_denoise src dst line none w h sp (hqdn3d_precalc_coef m ct0 dt)).frame_dst p
        = store_dst (spatialV src sp w (p / w) (p % w))) ∧
    (∀ x, x < w →
      (hqdn3d_denoise src dst line none w h sp (hqdn3d_precalc_coef m ct0 dt)).line_ant x
        = spatialV src sp w (h - 1) x) := by
  have h1 := spatial_first_frame_dst src dst line w h sp (hqdn3d_precalc_coef m ct0 dt)
    hw hh hsrc hsp p hp
  refine ⟨h1, ?_, ?_, ?_⟩
  · intro h0
    rw [h1, lowpass_of_entry_zero _ _ _ (spatialV_lt src sp w _ _) h0]
  · intro hS
    rw [h1, hS, lowpass_self _ (precalc_coef_mid m ct0 dt) _ (shl16_lt _ (hsrc p hp))]
  · intro x hx
    rw [denoise_eq_spatial src dst line none w h sp _ hsp]
    simp only [denoise_spatial_line _ _ _ _ w h sp _ hw hh, if_pos hx]

/-- C3 amended, on the 2x1 plane `100, 104` with the tables of the
counterexample. -/
theorem c3_first_frame_spatial_witness :
    (1 ≤ 2 ∧ 1 ≤ 1 ∧ (∀ p, p < 2 * 1 → (fun q => 100 + 4 * q) p < 256) ∧
      hqdn3d_precalc_coef realLibm (fun _ => 0) (255 * (3 / 4 - 1 / 100000)) 0 ≠ 0) ∧
    (hqdn3d_denoise (fun q => 100 + 4 * q) (fun _ => 0) (fun _ => 0) none 2 1
      (hqdn3d_precalc_coef realLibm (fun _ => 0) (255 * (3 / 4 - 1 / 100000)))
      (hqdn3d_precalc_coef realLibm (fun _ => 0) (255 * (3 / 4 - 1 / 100000)))).frame_dst 1
      = store_dst (hqdn3d_lowpass_mul ((fun q => 100 + 4 * q) 1 <<< 16)
          (spatialV (fun q => 100 + 4 * q)
            (hqdn3d_precalc_coef realLibm (fun _ => 0) (255 * (3 / 4 - 1 / 100000)))
            2 (1 / 2) (1 % 2))
          (hqdn3d_precalc_coef realLibm (fun _ => 0) (255 * (3 / 4 - 1 / 100000)))) := by
  have hT : (255 * (3 / 4 - 1 / 100000) : ℝ) ≠ 0 := by norm_num
  have hsp : hqdn3d_precalc_coef realLibm (fun _ => 0) (255 * (3 / 4 - 1 / 100000)) 0 ≠ 0 := by
    rw [precalc_coef_zero, if_pos hT]
    exact one_ne_zero
  have hsrc : ∀ p, p < 2 * 1 → (fun q => 100 + 4 * q) p < 256 := by
    intro p hp
    simp only
    omega
  exact ⟨⟨by decide, by decide, hsrc, hsp⟩,
    (c3_first_frame_spatial realLibm (fun _ => 0) (255 * (3 / 4 - 1 / 100000))
      (fun q => 100 + 4 * q) (fun _ => 0) (fun _ => 0) 2 1
      (hqdn3d_precalc_coef realLibm (fun _ => 0) (255 * (3 / 4 - 1 / 100000)))
      (by decide) (by decide) hsrc hsp 1 (by decide)).1⟩

/-! ## The table of threshold 0 in real arithmetic -/

theorem log_quarter_le : Real.log (1 / 4) ≤ -1 := by
  have h1 : Real.exp 1 ≤ 4 := by
    have := Real.exp_one_lt_d9
    linarith
  have h2 : (1 : ℝ) ≤ Real.log 4 := (Real.le_log_iff_exp_le (by norm_num)).mpr h1
  have h3 : Real.log (1 / 4) = -Real.log 4 := by
    rw [one_div, Real.log_inv]
  linarith

/-- The exponent of the threshold-0 table is large. -/
theorem gamma_zero_ge : (97920 : ℝ) ≤ precalc_gamma realLibm 0 := by
  have ha : (1 : ℝ) - 0 / 255 - 1 / 100000 = 99999 / 100000 := by norm_num
  have hneg : Real.log (99999 / 100000) < 0 :=
    Real.log_neg (by norm_num) (by norm_num)
  have hinv : Real.log ((99999 / 100000 : ℝ)⁻¹) ≤ (99999 / 100000 : ℝ)⁻¹ - 1 :=
    Real.log_le_sub_one_of_pos (by norm_num)
  rw [Real.log_inv] at hinv
  have hlow : -(1 / 99999 : ℝ) ≤ Real.log (99999 / 100000) := by
    have : ((99999 / 100000 : ℝ)⁻¹ - 1) = 1 / 99999 := by norm_num
    linarith
  simp only [precalc_gamma, realLibm, ha]
  rw [le_div_iff_of_neg hneg]
  have := log_quarter_le
  linarith

theorem exp_ten_ge : (1024 : ℝ) ≤ Real.exp 10 := by
  have h1 : (2 : ℝ) ≤ Real.exp 1 := by
    have := Real.add_one_le_exp 1
    linarith
  have h2 : Real.exp 10 = Real.exp 1 ^ 10 := by
    rw [← Real.exp_nat_mul]
    norm_num
  rw [h2]
  calc (1024 : ℝ) = 2 ^ 10 := by norm_num
    _ ≤ Real.exp 1 ^ 10 := pow_le_pow_left₀ (by norm_num) h1 10

/-- The weight of a non-zero difference is below the rounding threshold. -/
theorem weight_small (g k : ℝ) (hg : 97920 ≤ g) (hk1 : 1 ≤ k) (hk2 : k ≤ 4080) :
    0 ≤ (1 - k / (16 * 255)) ^ g * 4096 * k ∧ (1 - k / (16 * 255)) ^ g * 4096 * k < 1 / 2 := by
  have hs0 : 0 ≤ 1 - k / (16 * 255) := by
    have : k / (16 * 255) ≤ 1 := by
      rw [div_le_one (by norm_num)]
      linarith
    linarith
  have hpow0 : 0 ≤ (1 - k / (16 * 255)) ^ g := Real.rpow_nonneg hs0 g
  refine ⟨by positivity, ?_⟩
  rcases eq_or_lt_of_le hs0 with hs | hs
  · rw [← hs, Real.zero_rpow (by linarith)]
    norm_num
  · have hlog : Real.log (1 - k / (16 * 255)) ≤ -(k / (16 * 255)) := by
      have := Real.log_le_sub_one_of_pos hs
      linarith
    have hexp : Real.log (1 - k / (16 * 255)) * g ≤ -(24 * k) := by
      have h1 : Real.log (1 - k / (16 * 255)) * g ≤ -(k / (16 * 255)) * g :=
        mul_le_mul_of_nonneg_right hlog (by linarith)
      have h2 : -(k / (16 * 255)) * g ≤ -(k / (16 * 255)) * 97920 :=
        mul_le_mul_of_nonpos_left hg (by
          have : 0 ≤ k / (16 * 255) := by positivity
          linarith)
      have h3 : -(k / (16 * 255)) * 97920 = -(24 * k) := by ring
      linarith
    have hle : (1 - k / (16 * 255)) ^ g ≤ Real.exp (-(24 * k)) := by
      rw [Real.rpow_def_of_pos hs]
      exact Real.exp_le_exp.mpr hexp
    have hbig : 8192 * k < Real.exp (24 * k) := by
      have h1 : Real.exp (24 * k) = Real.exp 10 * Real.exp (24 * k - 10) := by
        rw [← Real.exp_add]
        congr 1
        ring
      have h2 : 24 * k - 10 + 1 ≤ Real.exp (24 * k - 10) := Real.add_one_le_exp _
      have h3 : (0 : ℝ) ≤ 24 * k - 10 + 1 := by linarith
      have h4 : 1024 * (24 * k - 10 + 1) ≤ Real.exp 10 * Real.exp (24 * k - 10) :=
        mul_le_mul exp_ten_ge h2 h3 (by positivity)
      rw [h1]
      linarith
    have hpos : 0 < Real.exp (24 * k) := Real.exp_pos _
    have hinv : Real.exp (-(24 * k)) * (8192 * k) < 1 := by
      rw [Real.exp_neg, inv_mul_lt_iff₀ hpos]
      linarith
    have hkpos : 0 < 4096 * k := by linarith
    have : (1 - k / (16 * 255)) ^ g * (4096 * k) ≤ Real.exp (-(24 * k)) * (4096 * k) :=
      mul_le_mul_of_nonneg_right hle (le_of_lt hkpos)
    nlinarith

/-- A value of magnitude below one half is stored as `0` by line 69. -/
theorem round_small {K : Type} [LinearOrderedField K] [FloorRing K] (c : K)
    (h1 : -(1 / 2) < c) (h2 : c < 1 / 2) :
    (if c < 0 then truncToInt (c - 1 / 2) else truncToInt (c + 1 / 2)) = 0 := by
  by_cases hc : c < 0
  · have h3 : c - 1 / 2 < 0 := by linarith
    rw [if_pos hc, truncToInt, if_pos h3, Int.ceil_eq_iff]
    constructor
    · push_cast
      linarith
    · push_cast
      linarith
  · have h3 : ¬ (c + 1 / 2 < 0) := by
      push_neg at hc ⊢
      linarith
    rw [if_neg hc, truncToInt, if_neg h3, Int.floor_eq_iff]
    push_neg at hc
    constructor
    · push_cast
      linarith
    · push_cast
      linarith

/-- In real arithmetic every difference entry of the threshold-0 table is 0. -/
theorem entry_zero_threshold (i : Int) (h1 : -4080 ≤ i) (h2 : i ≤ 4080) :
    precalc_entry realLibm 0 i = 0 := by
  rcases lt_trichotomy i 0 with hi | hi | hi
  · have hk1 : (1 : ℝ) ≤ -(i : ℝ) := by
      have : (1 : Int) ≤ -i := by omega
      exact_mod_cast this
    have hk2 : -(i : ℝ) ≤ 4080 := by
      have : -i ≤ (4080 : Int) := by omega
      exact_mod_cast this
    have habs : ((|i| : Int) : ℝ) = -(i : ℝ) := by
      rw [abs_of_neg hi]
      push_cast
      ring
    have hw := weight_small (precalc_gamma realLibm 0) (-(i : ℝ)) gamma_zero_ge hk1 hk2
    have hc : precalc_c realLibm 0 i
        = -((1 - -(i : ℝ) / (16 * 255)) ^ precalc_gamma realLibm 0 * 4096 * -(i : ℝ)) := by
      simp only [precalc_c, habs, realLibm]
      ring
    simp only [precalc_entry]
    apply round_small
    · rw [hc]
      linarith [hw.2]
    · rw [hc]
      linarith [hw.1]
  · rw [hi]
    exact precalc_entry_zero realLibm 0
  · have hk1 : (1 : ℝ) ≤ (i : ℝ) := by
      have : (1 : Int) ≤ i := by omega
      exact_mod_cast this
    have hk2 : (i : ℝ) ≤ 4080 := by
      exact_mod_cast h2
    have habs : ((|i| : Int) : ℝ) = (i : ℝ) := by
      rw [abs_of_pos hi]
    have hw := weight_small (precalc_gamma realLibm 0) (i : ℝ) gamma_zero_ge hk1 hk2
    have hc : precalc_c realLibm 0 i
        = (1 - (i : ℝ) / (16 * 255)) ^ precalc_gamma realLibm 0 * 4096 * (i : ℝ) := by
      simp only [precalc_c, habs, realLibm]
      ring
    simp only [precalc_entry]
    apply round_small
    · rw [hc]
      linarith [hw.1]
    · rw [hc]
      linarith [hw.2]

theorem table_zero_threshold (ct0 : Coef) (k : Int) (hk : 16 ≤ k ∧ k ≤ 8176) :
    hqdn3d_precalc_coef realLibm ct0 0 k = 0 := by
  rw [precalc_coef_apply realLibm ct0 0 k hk]
  exact entry_zero_threshold (k - 4096) (by omega) (by omega)

/-! ## Pass-through with an all-zero temporal table -/

/-- For operands up to `255<<16` the table index is a written difference entry. -/
theorem index_range (prev curr : Nat) (hp : prev ≤ 255 * 65536) (hc : curr ≤ 255 * 65536) :
    16 ≤ lowpass_index prev curr ∧ lowpass_index prev curr ≤ 8176 := by
  simp only [lowpass_index, i32, shiftRight12]
  omega

theorem lowpass_zero_table (tp : Coef) (hz : ∀ k, 16 ≤ k ∧ k ≤ 8176 → tp k = 0)
    (prev curr : Nat) (hp : prev ≤ 255 * 65536) (hc : curr ≤ 255 * 65536) :
    hqdn3d_lowpass_mul prev curr tp = curr :=
  lowpass_of_entry_zero tp prev curr (by omega) (hz _ (index_range prev curr hp hc))

/-- One temporal-only call with an all-zero temporal table returns the frame
and stores it in the previous-frame buffer. -/
theorem denoise_passthrough (src dst line : Buf) (fa : Option Buf) (w h : Nat)
    (sp tp : Coef) (hsp : sp 0 = 0) (hz : ∀ k, 16 ≤ k ∧ k ≤ 8176 → tp k = 0)
    (hsrc : ∀ p, p < w * h → src p < 256)
    (hfa : ∀ a, fa = some a → ∀ p, p < w * h → a p ≤ 255 * 256)
    (p : Nat) (hp : p < w * h) :
    (hqdn3d_denoise src dst line fa w h sp tp).frame_dst p = src p ∧
    (hqdn3d_denoise src dst line fa w h sp tp).frame_ant p = src p <<< 8 := by
  have hp2 : p < h * w := by rw [Nat.mul_comm]; exact hp
  have hs := hsrc p hp
  have hant : (match fa with
      | none => seed_frame_ant src w h
      | some a => a) p ≤ 255 * 256 := by
    cases fa with
    | none =>
      show seed_frame_ant src w h p ≤ 255 * 256
      rw [seed_eq_shl src w h p hp hs, Nat.shiftLeft_eq]
      omega
    | some a => exact hfa a rfl p hp
  have h1 : ((match fa with
      | none => seed_frame_ant src w h
      | some a => a) p) <<< 8 ≤ 255 * 65536 := by
    rw [Nat.shiftLeft_eq]
    omega
  have h2 : src p <<< 16 ≤ 255 * 65536 := by
    rw [Nat.shiftLeft_eq]
    omega
  rw [denoise_eq_temporal src dst line fa w h sp tp hsp, denoise_temporal_eq]
  simp only [temporal_after, if_pos hp2, lowpass_zero_table tp hz _ _ h1 h2]
  exact ⟨store_dst_shl _ hs, store_ant_shl _ hs⟩

theorem denoise_frames_passthrough (w h : Nat) (sp tp : Coef) (hsp : sp 0 = 0)
    (hz : ∀ k, 16 ≤ k ∧ k ≤ 8176 → tp k = 0) (dst0 : Buf) (frames : List Buf) :
    ∀ (line : Buf) (fa : Option Buf),
      (∀ f, f ∈ frames → ∀ p, p < w * h → f p < 256) →
      (∀ a, fa = some a → ∀ p, p < w * h → a p ≤ 255 * 256) →
      List.Forall₂ (fun o f => ∀ p, p < w * h → o p = f p)
        (denoise_frames w h sp tp dst0 frames line fa).1 frames := by
  induction frames with
  | nil =>
    intro line fa _ _
    simp [denoise_frames]
  | cons src rest ih =>
    intro line fa hfr hfa
    have hsrc : ∀ p, p < w * h → src p < 256 := hfr src (List.mem_cons_self _ _)
    have h1 := denoise_passthrough src dst0 line fa w h sp tp hsp hz hsrc hfa
    simp only [denoise_frames]
    refine List.Forall₂.cons (fun q hq => (h1 q hq).1) ?_
    refine ih _ _ (fun f hf => hfr f (List.mem_cons_of_mem _ hf)) ?_
    intro a ha q hq
    cases ha
    rw [(h1 q hq).2, Nat.shiftLeft_eq]
    have := hsrc q hq
    omega

/-- C4. Both axes disabled is pass-through. In exact real arithmetic the
table built with threshold 0 has every difference entry `ct[4096+i]`,
`-4080 <= i <= 4080`, equal to 0, so `hqdn3d_lowpass_mul` with it returns
`curr` for all operands up to `255<<16`; and with spatial and temporal
threshold both 0, every frame of every sequence of 8-bit planes fed to a
fresh plane state is output identical to its input. -/
theorem c4_both_disabled (cs ct : Coef) (w h : Nat) (dst0 line : Buf)
    (frames : List Buf) (hframes : ∀ f, f ∈ frames → ∀ p, p < w * h → f p < 256) :
    (∀ i : Int, -4080 ≤ i → i ≤ 4080 →
      hqdn3d_precalc_coef realLibm ct 0 (4096 + i) = 0) ∧
    (∀ prev curr : Nat, prev ≤ 255 * 65536 → curr ≤ 255 * 65536 →
      hqdn3d_lowpass_mul prev curr (hqdn3d_precalc_coef realLibm ct 0) = curr) ∧
    List.Forall₂ (fun o f => ∀ p, p < w * h → o p = f p)
      (denoise_frames w h (hqdn3d_precalc_coef realLibm cs 0)
        (hqdn3d_precalc_coef realLibm ct 0) dst0 frames line none).1 frames := by
  have hz : ∀ k, 16 ≤ k ∧ k ≤ 8176 → hqdn3d_precalc_coef realLibm ct 0 k = 0 :=
    table_zero_threshold ct
  have hsp : hqdn3d_precalc_coef realLibm cs 0 0 = 0 := by
    rw [precalc_coef_zero]
    simp
  refine ⟨fun i h1 h2 => hz _ (by omega), ?_, ?_⟩
  · intro prev curr hp hc
    exact lowpass_zero_table _ hz prev curr hp hc
  · exact denoise_frames_passthrough w h _ _ hsp hz dst0 frames line none hframes
      (fun a ha => by cases ha)

/-- C4, on two different 2x2 frames. -/
theorem c4_both_disabled_witness :
    (∀ f, f ∈ [(fun q => 10 * q + 7 : Buf), (fun q => 200 - q : Buf)] →
      ∀ p, p < 2 * 2 → f p < 256) ∧
    List.Forall₂ (fun o f => ∀ p, p < 2 * 2 → o p = f p)
      (denoise_frames 2 2 (hqdn3d_precalc_coef realLibm (fun _ => 0) 0)
        (hqdn3d_precalc_coef realLibm (fun _ => 0) 0) (fun _ => 0)
        [(fun q => 10 * q + 7 : Buf), (fun q => 200 - q : Buf)] (fun _ => 0) none).1
      [(fun q => 10 * q + 7 : Buf), (fun q => 200 - q : Buf)] := by
  have hf : ∀ f, f ∈ [(fun q => 10 * q + 7 : Buf), (fun q => 200 - q : Buf)] →
      ∀ p, p < 2 * 2 → f p < 256 := by
    intro f hf p hp
    simp only [List.mem_cons, List.mem_singleton, List.not_mem_nil, or_false] at hf
    rcases hf with hf | hf <;> rw [hf] <;> simp only <;> omega
  exact ⟨hf, (c4_both_disabled (fun _ => 0) (fun _ => 0) 2 2 (fun _ => 0) (fun _ => 0)
    [(fun q => 10 * q + 7 : Buf), (fun q => 200 - q : Buf)] hf).2.2⟩

/-- C5. Idempotence of the lowpass primitive: for every table built by
`hqdn3d_precalc_coef` (any threshold, any initial table memory) and every
32-bit value `x`, `hqdn3d_lowpass_mul(x, x, ct) = x`; the index used for a
zero difference is 4096 and `ct[4096] = 0`. -/
theorem c5_lowpass_idempotent {K : Type} [LinearOrderedField K] [FloorRing K]
    (m : Libm K) (ct0 : Coef) (t : K) (x : Nat) (hx : x < 2 ^ 32) :
    hqdn3d_lowpass_mul x x (hqdn3d_precalc_coef m ct0 t) = x ∧
    lowpass_index x x = 4096 ∧
    hqdn3d_precalc_coef m ct0 t 4096 = 0 :=
  ⟨lowpass_self _ (precalc_coef_mid m ct0 t) x hx, lowpass_index_self x,
    precalc_coef_mid m ct0 t⟩

/-- C5, at `x = 0xFFFFFFFF` with the real-arithmetic table of threshold 4. -/
theorem c5_lowpass_idempotent_witness :
    4294967295 < 2 ^ 32 ∧
    hqdn3d_lowpass_mul 4294967295 4294967295
      (hqdn3d_precalc_coef realLibm (fun _ => 0) 4) = 4294967295 :=
  ⟨by decide, (c5_lowpass_idempotent realLibm (fun _ => 0) 4 4294967295 (by decide)).1⟩

/-! ## Monotonicity in the threshold (real arithmetic) -/

/-- A larger threshold gives a smaller, still non-negative, exponent. -/
theorem gamma_antitone (t1 t2 : ℝ) (h0 : 0 ≤ t1) (h12 : t1 ≤ t2)
    (h2 : t2 < 255 * (1 - 1 / 100000)) :
    0 ≤ precalc_gamma realLibm t2 ∧ precalc_gamma realLibm t2 ≤ precalc_gamma realLibm t1 := by
  have ha2 : 0 < 1 - t2 / 255 - 1 / 100000 := by
    have : t2 / 255 < 1 - 1 / 100000 := by
      rw [div_lt_iff₀ (by norm_num)]
      linarith
    linarith
  have ha12 : 1 - t2 / 255 - 1 / 100000 ≤ 1 - t1 / 255 - 1 / 100000 := by
    have : t1 / 255 ≤ t2 / 255 := div_le_div_of_nonneg_right h12 (by norm_num)
    linarith
  have ha1 : 1 - t1 / 255 - 1 / 100000 < 1 := by
    have : 0 ≤ t1 / 255 := by positivity
    linarith
  have hl1 : Real.log (1 - t1 / 255 - 1 / 100000) < 0 :=
    Real.log_neg (by linarith) ha1
  have hl12 : Real.log (1 - t2 / 255 - 1 / 100000) ≤ Real.log (1 - t1 / 255 - 1 / 100000) :=
    Real.log_le_log ha2 ha12
  have hL : Real.log (1 / 4) < 0 := by
    have := log_quarter_le
    linarith
  simp only [precalc_gamma, realLibm]
  constructor
  · exact div_nonneg_of_nonpos (le_of_lt hL) (by linarith)
  · rw [← neg_div_neg_eq (Real.log (1 / 4)) (Real.log (1 - t2 / 255 - 1 / 100000)),
      ← neg_div_neg_eq (Real.log (1 / 4)) (Real.log (1 - t1 / 255 - 1 / 100000)),
      div_le_div_iff_of_pos_left (by linarith) (by linarith) (by linarith)]
    linarith

/-- For a non-negative difference the value of lines 67-68 is non-negative
and does not decrease when the threshold grows. -/
theorem precalc_c_mono (t1 t2 : ℝ) (h0 : 0 ≤ t1) (h12 : t1 ≤ t2)
    (h2 : t2 < 255 * (1 - 1 / 100000)) (d : Int) (hd0 : 0 ≤ d) (hd : d ≤ 4080) :
    0 ≤ precalc_c realLibm t1 d ∧ precalc_c realLibm t1 d ≤ precalc_c realLibm t2 d := by
  have hg := gamma_antitone t1 t2 h0 h12 h2
  have hdr0 : (0 : ℝ) ≤ (d : ℝ) := by exact_mod_cast hd0
  have hdr : (d : ℝ) ≤ 4080 := by exact_mod_cast hd
  have habs : ((|d| : Int) : ℝ) = (d : ℝ) := by rw [abs_of_nonneg hd0]
  have hs0 : 0 ≤ 1 - (d : ℝ) / (16 * 255) := by
    have : (d : ℝ) / (16 * 255) ≤ 1 := by
      rw [div_le_one (by norm_num)]
      linarith
    linarith
  have hs1 : 1 - (d : ℝ) / (16 * 255) ≤ 1 := by
    have : 0 ≤ (d : ℝ) / (16 * 255) := by positivity
    linarith
  have hpow : (1 - (d : ℝ) / (16 * 255)) ^ precalc_gamma realLibm t1
      ≤ (1 - (d : ℝ) / (16 * 255)) ^ precalc_gamma realLibm t2 :=
    Real.rpow_le_rpow_of_exponent_ge' hs0 hs1 hg.1 hg.2
  have hp0 : 0 ≤ (1 - (d : ℝ) / (16 * 255)) ^ precalc_gamma realLibm t1 :=
    Real.rpow_nonneg hs0 _
  simp only [precalc_c, habs, realLibm]
  constructor
  · positivity
  · have h3 : (1 - (d : ℝ) / (16 * 255)) ^ precalc_gamma realLibm t1 * (65536 * (d : ℝ) / 16)
        ≤ (1 - (d : ℝ) / (16 * 255)) ^ precalc_gamma realLibm t2 * (65536 * (d : ℝ) / 16) :=
      mul_le_mul_of_nonneg_right hpow (by positivity)
    simp only [precalc_gamma, realLibm] at h3 ⊢
    linarith

theorem precalc_entry_of_nonneg {K : Type} [LinearOrderedField K] [FloorRing K]
    (m : Libm K) (t : K) (i : Int) (hc : 0 ≤ precalc_c m t i) :
    precalc_entry m t i = ⌊precalc_c m t i + 1 / 2⌋ := by
  have h1 : ¬ (precalc_c m t i < 0) := not_lt.mpr hc
  have h2 : ¬ (precalc_c m t i + 1 / 2 < 0) := by
    push_neg
    linarith
  simp only [precalc_entry, if_neg h1, truncToInt, if_neg h2]

/-- C6. Monotonicity of the coefficient table in the threshold, in exact
real arithmetic: for thresholds `0 < t1 < t2 < 255*(1 - 0.00001)` and every
difference magnitude `d` in `0..4080`, the entry for `d` of the table built
from `t2` is at least that of the table built from `t1`. -/
theorem c6_table_monotone (ct1 ct2 : Coef) (t1 t2 : ℝ) (h0 : 0 < t1) (h12 : t1 < t2)
    (h2 : t2 < 255 * (1 - 1 / 100000)) (d : Int) (hd0 : 0 ≤ d) (hd : d ≤ 4080) :
    hqdn3d_precalc_coef realLibm ct1 t1 (4096 + d)
      ≤ hqdn3d_precalc_coef realLibm ct2 t2 (4096 + d) := by
  have hc := precalc_c_mono t1 t2 (le_of_lt h0) (le_of_lt h12) h2 d hd0 hd
  have hk : (4096 + d) - 4096 = d := by ring
  rw [precalc_coef_apply realLibm ct1 t1 (4096 + d) (by omega),
    precalc_coef_apply realLibm ct2 t2 (4096 + d) (by omega), hk,
    precalc_entry_of_nonneg realLibm t1 d hc.1,
    precalc_entry_of_nonneg realLibm t2 d (le_trans hc.1 hc.2)]
  exact Int.floor_mono (by linarith [hc.2])

/-- C6, for the thresholds 3 and 6 at the difference 16. -/
theorem c6_table_monotone_witness :
    ((0 : ℝ) < 3 ∧ (3 : ℝ) < 6 ∧ (6 : ℝ) < 255 * (1 - 1 / 100000) ∧
      (0 : Int) ≤ 16 ∧ (16 : Int) ≤ 4080) ∧
    hqdn3d_precalc_coef realLibm (fun _ => 0) 3 (4096 + 16)
      ≤ hqdn3d_precalc_coef realLibm (fun _ => 0) 6 (4096 + 16) :=
  ⟨⟨by norm_num, by norm_num, by norm_num, by decide, by decide⟩,
    c6_table_monotone (fun _ => 0) (fun _ => 0) 3 6 (by norm_num) (by norm_num)
      (by norm_num) 16 (by decide) (by decide)⟩

/-- C7. Sentinel slot: after `hqdn3d_precalc_coef(ct, t)` slot 0 holds 0 if
`t = 0` and 1 otherwise (in particular for `t > 0`); the loop writes exactly
the indices `16..8176`, each with the entry of its difference, and leaves
every other slot, slot 0 included, as it was; and `hqdn3d_denoise` runs the
spatial pass iff slot 0 of the spatial table is non-zero, the temporal-only
pass otherwise. -/
theorem c7_sentinel {K : Type} [LinearOrderedField K] [FloorRing K]
    (m : Libm K) (ct0 : Coef) (t : K) :
    hqdn3d_precalc_coef m ct0 t 0 = (if t = 0 then 0 else 1) ∧
    (∀ k : Int, precalc_loop m ct0 t k
      = if 16 ≤ k ∧ k ≤ 8176 then precalc_entry m t (k - 4096) else ct0 k) ∧
    precalc_loop m ct0 t 0 = ct0 0 ∧
    (∀ (src dst line : Buf) (fa : Option Buf) (w h : Nat) (sp tp : Coef),
      hqdn3d_denoise src dst line fa w h sp tp
        = if sp 0 ≠ 0 then
            ⟨(hqdn3d_denoise_spatial src dst line
                (match fa with
                  | none => seed_frame_ant src w h
                  | some a => a) w h sp tp).frame_dst,
              (hqdn3d_denoise_spatial src dst line
                (match fa with
                  | none => seed_frame_ant src w h
                  | some a => a) w h sp tp).line_ant,
              (hqdn3d_denoise_spatial src dst line
                (match fa with
                  | none => seed_frame_ant src w h
                  | some a => a) w h sp tp).frame_ant⟩
          else
            ⟨(hqdn3d_denoise_temporal src dst
                (match fa with
                  | none => seed_frame_ant src w h
                  | some a => a) w h tp).frame_dst,
              line,
              (hqdn3d_denoise_temporal src dst
                (match fa with
                  | none => seed_frame_ant src w h
                  | some a => a) w h tp).frame_ant⟩) := by
  refine ⟨?_, precalc_loop_apply m ct0 t, ?_, ?_⟩
  · rw [precalc_coef_zero]
    by_cases ht : t = 0
    · simp [ht]
    · simp [ht]
  · rw [precalc_loop_apply, if_neg (by omega)]
  · intro src dst line fa w h sp tp
    by_cases hsp : sp 0 = 0
    · rw [denoise_eq_temporal src dst line fa w h sp tp hsp]
      simp [hsp]
    · rw [denoise_eq_spatial src dst line fa w h sp tp hsp]
      simp [hsp]

/-! ## Stage initialisation -/

theorem sscanf_ret_four {K : Type} (a b c d : K) (rest : List K) :
    sscanf_ret (.conv (a :: b :: c :: d :: rest)) = 4 := by
  simp only [sscanf_ret, List.length_cons]
  omega

theorem init_strengths_nil {K : Type} [LinearOrderedField K] (l : Strengths K) :
    init_strengths l (some (.conv [])) =
      { spatial_luma := 4, spatial_chroma := 3, temporal_luma := 6,
        temporal_chroma := 6 * 3 / 4 } := by
  simp [init_strengths, sscanf_ret, sscanf_store, init_switch,
    HQDN3D_SPATIAL_LUMA_DEFAULT, HQDN3D_SPATIAL_CHROMA_DEFAULT,
    HQDN3D_TEMPORAL_LUMA_DEFAULT]

theorem init_strengths_one {K : Type} [LinearOrderedField K] (l : Strengths K) (a : K) :
    init_strengths l (some (.conv [a])) =
      { spatial_luma := a, spatial_chroma := 3 * a / 4, temporal_luma := 6 * a / 4,
        temporal_chroma := 6 * a / 4 * (3 * a / 4) / a } := by
  simp [init_strengths, sscanf_ret, sscanf_store, init_switch,
    HQDN3D_SPATIAL_LUMA_DEFAULT, HQDN3D_SPATIAL_CHROMA_DEFAULT,
    HQDN3D_TEMPORAL_LUMA_DEFAULT]

theorem init_strengths_two {K : Type} [LinearOrderedField K] (l : Strengths K) (a b : K) :
    init_strengths l (some (.conv [a, b])) =
      { spatial_luma := a, spatial_chroma := b, temporal_luma := 6 * a / 4,
        temporal_chroma := 6 * a / 4 * b / a } := by
  simp [init_strengths, sscanf_ret, sscanf_store, init_switch,
    HQDN3D_SPATIAL_LUMA_DEFAULT, HQDN3D_SPATIAL_CHROMA_DEFAULT,
    HQDN3D_TEMPORAL_LUMA_DEFAULT]

theorem init_strengths_three {K : Type} [LinearOrderedField K] (l : Strengths K)
    (a b c : K) :
    init_strengths l (some (.conv [a, b, c])) =
      { spatial_luma := a, spatial_chroma := b, temporal_luma := c,
        temporal_chroma := c * b / a } := by
  simp [init_strengths, sscanf_ret, sscanf_store, init_switch,
    HQDN3D_SPATIAL_LUMA_DEFAULT, HQDN3D_SPATIAL_CHROMA_DEFAULT,
    HQDN3D_TEMPORAL_LUMA_DEFAULT]

theorem init_strengths_four {K : Type} [LinearOrderedField K] (l : Strengths K)
    (a b c d : K) (rest : List K) :
    init_strengths l (some (.conv (a :: b :: c :: d :: rest))) =
      { spatial_luma := a, spatial_chroma := b, temporal_luma := c,
        temporal_chroma := d } := by
  simp only [init_strengths, sscanf_ret_four, sscanf_store, init_switch]
  norm_num

/-- C8. Cascading defaults preserve the baseline ratios: with `n` values
parsed from the settings string, `hb_denoise_init` uses every supplied value
unchanged and derives the others so that (`n = 0`) the strengths are
`4, 3, 6, 9/2`; (`n <= 1`) `spatial_chroma = 3/4 * spatial_luma`; (`n <= 2`)
`temporal_luma = 6/4 * spatial_luma`; (`n <= 3`, `spatial_luma != 0`)
`temporal_chroma * spatial_luma = temporal_luma * spatial_chroma`. -/
theorem c8_cascading_defaults {K : Type} [LinearOrderedField K]
    (locals : Strengths K) (vals : List K) :
    (∀ a, vals.get? 0 = some a →
      (init_strengths locals (some (.conv vals))).spatial_luma = a) ∧
    (∀ b, vals.get? 1 = some b →
      (init_strengths locals (some (.conv vals))).spatial_chroma = b) ∧
    (∀ c, vals.get? 2 = some c →
      (init_strengths locals (some (.conv vals))).temporal_luma = c) ∧
    (∀ d, vals.get? 3 = some d →
      (init_strengths locals (some (.conv vals))).temporal_chroma = d) ∧
    (vals.length = 0 →
      (init_strengths locals (some (.conv vals))).spatial_luma = 4 ∧
      (init_strengths locals (some (.conv vals))).spatial_chroma = 3 ∧
      (init_strengths locals (some (.conv vals))).temporal_luma = 6 ∧
      (init_strengths locals (some (.conv vals))).temporal_chroma = 9 / 2) ∧
    (vals.length ≤ 1 →
      (init_strengths locals (some (.conv vals))).spatial_chroma
        = 3 / 4 * (init_strengths locals (some (.conv vals))).spatial_luma) ∧
    (vals.length ≤ 2 →
      (init_strengths locals (some (.conv vals))).temporal_luma
        = 6 / 4 * (init_strengths locals (some (.conv vals))).spatial_luma) ∧
    (vals.length ≤ 3 →
      (init_strengths locals (some (.conv vals))).spatial_luma ≠ 0 →
      (init_strengths locals (some (.conv vals))).temporal_chroma
          * (init_strengths locals (some (.conv vals))).spatial_luma
        = (init_strengths locals (some (.conv vals))).temporal_luma
          * (init_strengths locals (some (.conv vals))).spatial_chroma) := by
  match vals with
  | [] =>
    rw [init_strengths_nil]
    simp
    norm_num
  | [a] =>
    rw [init_strengths_one]
    simp
    refine ⟨by ring, by ring, ?_⟩
    intro ha
    field_simp
    ring
  | [a, b] =>
    rw [init_strengths_two]
    simp
    refine ⟨by ring, ?_⟩
    intro ha
    field_simp
    ring
  | [a, b, c] =>
    rw [init_strengths_three]
    simp
    intro ha
    field_simp
  | a :: b :: c :: d :: rest =>
    rw [init_strengths_four]
    simp

/-- C8, over the rationals for a settings string holding the single value 8:
the derived strengths are `6, 12, 9`. -/
theorem c8_cascading_defaults_witness :
    (([8] : List ℚ).length ≤ 1 →
      (init_strengths (⟨0, 0, 0, 0⟩ : Strengths ℚ) (some (.conv [8]))).spatial_chroma
        = 3 / 4 * (init_strengths (⟨0, 0, 0, 0⟩ : Strengths ℚ)
            (some (.conv [8]))).spatial_luma) ∧
    (init_strengths (⟨0, 0, 0, 0⟩ : Strengths ℚ) (some (.conv [8])))
      = { spatial_luma := 8, spatial_chroma := 6, temporal_luma := 12,
          temporal_chroma := 9 } := by
  refine ⟨(c8_cascading_defaults (⟨0, 0, 0, 0⟩ : Strengths ℚ) [8]).2.2.2.2.2.1, ?_⟩
  rw [init_strengths_one]
  norm_num

/-- C9 fails on the code. With `filter->settings` null the `if` of line 222
is skipped, so the four strengths handed to `hqdn3d_precalc_coef` are the
uninitialised locals, whatever they hold, whereas a string without a
parsable value (return value 0) gives the baseline defaults
`4, 3, 6, 9/2`. -/
theorem c9_null_settings {K : Type} [LinearOrderedField K] [FloorRing K]
    (m : Libm K) (locals : Strengths K) :
    init_strengths locals none = locals ∧
    (hb_denoise_init m locals none).2.hqdn3d_coef 0
      = hqdn3d_precalc_coef m (fun _ => 0) locals.spatial_luma ∧
    init_strengths locals (some (.conv []))
      = { spatial_luma := 4, spatial_chroma := 3, temporal_luma := 6,
          temporal_chroma := 9 / 2 } := by
  refine ⟨rfl, rfl, ?_⟩
  rw [init_strengths_nil]
  norm_num

/-- C10 fails as stated. For the settings string `255` the strength
`spatial_luma` is 255, for which `1 - 255/255 - 0.00001 <= 0`, and
`hb_denoise_init` still returns 0. -/
theorem c10_counterexample :
    (init_strengths (⟨0, 0, 0, 0⟩ : Strengths ℝ) (some (.conv [255]))).spatial_luma = 255 ∧
    (1 : ℝ) - 255 / 255 - 1 / 100000 ≤ 0 ∧
    (hb_denoise_init realLibm (⟨0, 0, 0, 0⟩ : Strengths ℝ) (some (.conv [255]))).1 = 0 := by
  refine ⟨?_, by norm_num, rfl⟩
  rw [init_strengths_one]

/-- C10, amended. `hb_denoise_init` does not validate the strengths: it
returns 0 for every configuration and builds the four tables, in zero-filled
memory, from the strengths as they are (luma spatial, luma temporal, chroma
spatial, chroma temporal). -/
theorem c10_init_returns_zero {K : Type} [LinearOrderedField K] [FloorRing K]
    (m : Libm K) (locals : Strengths K) (settings : Option (Scanned K)) :
    (hb_denoise_init m locals settings).1 = 0 ∧
    (hb_denoise_init m locals settings).2.hqdn3d_coef 0
      = hqdn3d_precalc_coef m (fun _ => 0) (init_strengths locals settings).spatial_luma ∧
    (hb_denoise_init m locals settings).2.hqdn3d_coef 1
      = hqdn3d_precalc_coef m (fun _ => 0) (init_strengths locals settings).temporal_luma ∧
    (hb_denoise_init m locals settings).2.hqdn3d_coef 2
      = hqdn3d_precalc_coef m (fun _ => 0) (init_strengths locals settings).spatial_chroma ∧
    (hb_denoise_init m locals settings).2.hqdn3d_coef 3
      = hqdn3d_precalc_coef m (fun _ => 0) (init_strengths locals settings).temporal_chroma :=
  ⟨rfl, rfl, rfl, rfl, rfl⟩

/-! ## Quantization of the difference -/

/-- For operands up to `255<<16` neither conversion wraps: the index is the
biased difference shifted right by 12. -/
theorem lowpass_index_eq (prev curr : Nat) (hp : prev ≤ 255 * 65536)
    (hc : curr ≤ 255 * 65536) :
    lowpass_index prev curr = (((prev : Int) - (curr : Int)) + 0x10007FF) / 4096 := by
  simp only [lowpass_index, i32, shiftRight12]
  omega

/-- C15. Quantization rounds to nearest: for `prev`, `curr` in
`[0, 255*65536]`, with `diff = prev - curr` and
`i = ((diff + 0x10007FF) >> 12) - 4096` as computed by `hqdn3d_lowpass_mul`,
`-2048 <= 4096*i - diff <= 2047` and the table index `i + 4096` lies in
`16..8176`. -/
theorem c15_quantization (prev curr : Nat) (hp : prev ≤ 255 * 65536)
    (hc : curr ≤ 255 * 65536) :
    lowpass_index prev curr = (((prev : Int) - (curr : Int)) + 0x10007FF) >>> (12 : Nat) ∧
    -2048 ≤ 4096 * (lowpass_index prev curr - 4096) - ((prev : Int) - (curr : Int)) ∧
    4096 * (lowpass_index prev curr - 4096) - ((prev : Int) - (curr : Int)) ≤ 2047 ∧
    16 ≤ lowpass_index prev curr ∧ lowpass_index prev curr ≤ 8176 := by
  have h := lowpass_index_eq prev curr hp hc
  refine ⟨by rw [h, shiftRight12], ?_, ?_, ?_, ?_⟩ <;> rw [h] <;> omega

/-- C15, at `prev = 255<<16`, `curr = 2049`. -/
theorem c15_quantization_witness :
    (16711680 ≤ 255 * 65536 ∧ 2049 ≤ 255 * 65536) ∧
    -2048 ≤ 4096 * (lowpass_index 16711680 2049 - 4096)
      - (((16711680 : Nat) : Int) - ((2049 : Nat) : Int)) :=
  ⟨by decide, (c15_quantization 16711680 2049 (by decide) (by decide)).2.1⟩

/-! ## Odd symmetry of the table -/

theorem precalc_c_neg {K : Type} [LinearOrderedField K] (m : Libm K) (t : K) (i : Int) :
    precalc_c m t (-i) = -precalc_c m t i := by
  simp only [precalc_c, abs_neg, Int.cast_neg]
  ring

section Symmetry

variable {K : Type} [LinearOrderedField K] [FloorRing K]

theorem round_pos (c : K) (hc : 0 < c) :
    (if c < 0 then truncToInt (c - 1 / 2) else truncToInt (c + 1 / 2)) = ⌊c + 1 / 2⌋ ∧
    (if -c < 0 then truncToInt (-c - 1 / 2) else truncToInt (-c + 1 / 2)) = -⌊c + 1 / 2⌋ := by
  have h1 : ¬ c < 0 := not_lt.mpr (le_of_lt hc)
  have h2 : ¬ (c + 1 / 2 < 0) := by
    push_neg
    linarith
  have h3 : -c < 0 := by linarith
  have h4 : -c - 1 / 2 < 0 := by linarith
  have h5 : -c - 1 / 2 = -(c + 1 / 2) := by ring
  refine ⟨by rw [if_neg h1, truncToInt, if_neg h2], ?_⟩
  rw [if_pos h3, truncToInt, if_pos h4, h5, Int.ceil_neg]

/-- Line 69 rounds half away from zero, an odd function. -/
theorem round_odd (c : K) :
    (if -c < 0 then truncToInt (-c - 1 / 2) else truncToInt (-c + 1 / 2))
      = -(if c < 0 then truncToInt (c - 1 / 2) else truncToInt (c + 1 / 2)) := by
  rcases lt_trichotomy c 0 with hc | hc | hc
  · have h := round_pos (-c) (by linarith)
    rw [neg_neg] at h
    rw [h.1, h.2, neg_neg]
  · subst hc
    simp only [neg_zero, lt_irrefl, if_false, zero_add]
    have h2 : ¬ ((1 : K) / 2 < 0) := by norm_num
    have h3 : ⌊(1 : K) / 2⌋ = 0 := by
      rw [Int.floor_eq_iff]
      norm_num
    rw [truncToInt, if_neg h2, h3, neg_zero]
  · have h := round_pos c hc
    rw [h.1, h.2]

theorem precalc_entry_neg (m : Libm K) (t : K) (i : Int) :
    precalc_entry m t (-i) = -precalc_entry m t i := by
  simp only [precalc_entry, precalc_c_neg]
  exact round_odd (precalc_c m t i)

theorem table_odd (m : Libm K) (ct0 : Coef) (t : K) (i : Int)
    (h0 : 0 ≤ i) (h1 : i ≤ 4080) :
    hqdn3d_precalc_coef m ct0 t (4096 - i) = -hqdn3d_precalc_coef m ct0 t (4096 + i) := by
  have ha : (4096 - i) - 4096 = -i := by ring
  have hb : (4096 + i) - 4096 = i := by ring
  rw [precalc_coef_apply m ct0 t (4096 - i) (by omega),
    precalc_coef_apply m ct0 t (4096 + i) (by omega), ha, hb, precalc_entry_neg]

/-- C19. The coefficient table is odd-symmetric: for every threshold and
every `i` in `0..4080`, the table built by `hqdn3d_precalc_coef` satisfies
`ct[4096 - i] = -ct[4096 + i]`: `c(i)` is odd in `i` and the conversion of
line 69 rounds half away from zero. -/
theorem c19_odd_symmetric (m : Libm K) (ct0 : Coef) (t : K) (i : Int)
    (h0 : 0 ≤ i) (h1 : i ≤ 4080) :
    hqdn3d_precalc_coef m ct0 t (4096 - i) = -hqdn3d_precalc_coef m ct0 t (4096 + i) :=
  table_odd m ct0 t i h0 h1

end Symmetry

/-- C19, for the real-arithmetic table of threshold 4 at `i = 64`. -/
theorem c19_odd_symmetric_witness :
    ((0 : Int) ≤ 64 ∧ (64 : Int) ≤ 4080) ∧
    hqdn3d_precalc_coef realLibm (fun _ => 0) 4 (4096 - 64)
      = -hqdn3d_precalc_coef realLibm (fun _ => 0) 4 (4096 + 64) :=
  ⟨by decide, c19_odd_symmetric realLibm (fun _ => 0) 4 64 (by decide) (by decide)⟩

/-! ## Range of the table entries (real arithmetic) -/

theorem gamma_pos (t : ℝ) (h0 : 0 ≤ t) (h1 : t < 255 * (1 - 1 / 100000)) :
    0 < precalc_gamma realLibm t := by
  have hg := (gamma_antitone t t h0 (le_refl t) h1).1
  have ha1 : 1 - t / 255 - 1 / 100000 < 1 := by
    have : 0 ≤ t / 255 := by positivity
    linarith
  have ha0 : 0 < 1 - t / 255 - 1 / 100000 := by
    have : t / 255 < 1 - 1 / 100000 := by
      rw [div_lt_iff₀ (by norm_num)]
      linarith
    linarith
  have hl : Real.log (1 - t / 255 - 1 / 100000) < 0 := Real.log_neg ha0 ha1
  have hq : Real.log (1 / 4) < 0 := by
    have := log_quarter_le
    linarith
  have hne : precalc_gamma realLibm t ≠ 0 := by
    simp only [precalc_gamma, realLibm]
    exact div_ne_zero (ne_of_lt hq) (ne_of_lt hl)
  exact lt_of_le_of_ne hg (Ne.symm hne)

theorem precalc_c_le (t : ℝ) (h0 : 0 ≤ t) (h1 : t < 255 * (1 - 1 / 100000)) (i : Int)
    (hi0 : 0 ≤ i) (hi : i ≤ 4080) :
    precalc_c realLibm t i ≤ 4096 * (i : ℝ) := by
  have hg := gamma_pos t h0 h1
  have hdr0 : (0 : ℝ) ≤ (i : ℝ) := by exact_mod_cast hi0
  have hdr : (i : ℝ) ≤ 4080 := by exact_mod_cast hi
  have habs : ((|i| : Int) : ℝ) = (i : ℝ) := by rw [abs_of_nonneg hi0]
  have hs0 : 0 ≤ 1 - (i : ℝ) / (16 * 255) := by
    have : (i : ℝ) / (16 * 255) ≤ 1 := by
      rw [div_le_one (by norm_num)]
      linarith
    linarith
  have hs1 : 1 - (i : ℝ) / (16 * 255) ≤ 1 := by
    have : 0 ≤ (i : ℝ) / (16 * 255) := by positivity
    linarith
  have hp1 : (1 - (i : ℝ) / (16 * 255)) ^ precalc_gamma realLibm t ≤ 1 :=
    Real.rpow_le_one hs0 hs1 (le_of_lt hg)
  have h3 : (1 - (i : ℝ) / (16 * 255)) ^ precalc_gamma realLibm t * (4096 * (i : ℝ))
      ≤ 1 * (4096 * (i : ℝ)) :=
    mul_le_mul_of_nonneg_right hp1 (by positivity)
  simp only [precalc_c, habs, realLibm]
  simp only [precalc_gamma, realLibm] at h3 ⊢
  linarith

theorem entry_bounds (t : ℝ) (h0 : 0 ≤ t) (h1 : t < 255 * (1 - 1 / 100000)) (i : Int)
    (hi0 : 0 ≤ i) (hi : i ≤ 4080) :
    0 ≤ precalc_entry realLibm t i ∧ precalc_entry realLibm t i ≤ 4096 * i := by
  have hc0 := (precalc_c_mono t t h0 (le_refl t) h1 i hi0 hi).1
  have hc1 := precalc_c_le t h0 h1 i hi0 hi
  rw [precalc_entry_of_nonneg realLibm t i hc0]
  constructor
  · exact Int.floor_nonneg.mpr (by linarith)
  · have h2 : ⌊precalc_c realLibm t i + 1 / 2⌋ < 4096 * i + 1 := by
      rw [Int.floor_lt]
      push_cast
      linarith
    omega

theorem entry_end (t : ℝ) (h0 : 0 ≤ t) (h1 : t < 255 * (1 - 1 / 100000)) :
    precalc_entry realLibm t 4080 = 0 := by
  have hg := gamma_pos t h0 h1
  have hc : precalc_c realLibm t 4080 = 0 := by
    have hs : (1 : ℝ) - ((|(4080 : Int)| : Int) : ℝ) / (16 * 255) = 0 := by
      norm_num
    have hz : (0 : ℝ) ^ precalc_gamma realLibm t = 0 := Real.zero_rpow (ne_of_gt hg)
    simp only [precalc_c, hs]
    show (0 : ℝ) ^ precalc_gamma realLibm t * 65536 * ((4080 : Int) : ℝ) / 16 = 0
    rw [hz]
    ring
  rw [precalc_entry_of_nonneg realLibm t 4080 (le_of_eq hc.symm), hc, Int.floor_eq_iff]
  norm_num

/-- Every table built in real arithmetic from a threshold in
`[0, 255*(1-0.00001))` has bounded entries. -/
theorem precalc_entries_bounded (ct0 : Coef) (t : ℝ) (h0 : 0 ≤ t)
    (h1 : t < 255 * (1 - 1 / 100000)) :
    entries_bounded (hqdn3d_precalc_coef realLibm ct0 t) := by
  intro i hlo hhi
  rw [precalc_coef_apply realLibm ct0 t (4096 + i) (by omega)]
  have hk : (4096 + i) - 4096 = i := by ring
  rw [hk]
  constructor
  · intro hi
    exact entry_bounds t h0 h1 i hi hhi
  · intro hi
    have hb := entry_bounds t h0 h1 (-i) (by omega) (by omega)
    rw [precalc_entry_neg] at hb
    constructor <;> omega

/-! ## Range of the blend -/

/-- The integer result of the blend stays within the quantization error of
the interval between its operands. -/
theorem lowpass_bounds (ct : Coef) (hT : entries_bounded ct) (prev curr : Nat)
    (hp : prev ≤ 255 * 65536) (hc : curr ≤ 255 * 65536) :
    (curr ≤ prev →
      (curr : Int) ≤ (curr : Int) + ct (lowpass_index prev curr) ∧
      (curr : Int) + ct (lowpass_index prev curr) ≤ (prev : Int) + 2047) ∧
    (prev ≤ curr →
      (prev : Int) - 2048 ≤ (curr : Int) + ct (lowpass_index prev curr) ∧
      (curr : Int) + ct (lowpass_index prev curr) ≤ (curr : Int)) ∧
    ((4096 : Int) ∣ (prev : Int) - (curr : Int) →
      min (prev : Int) (curr : Int) ≤ (curr : Int) + ct (lowpass_index prev curr) ∧
      (curr : Int) + ct (lowpass_index prev curr) ≤ max (prev : Int) (curr : Int)) := by
  have hidx := lowpass_index_eq prev curr hp hc
  have hr := index_range prev curr hp hc
  have hT2 := hT (lowpass_index prev curr - 4096) (by omega) (by omega)
  have he : (4096 : Int) + (lowpass_index prev curr - 4096) = lowpass_index prev curr := by
    ring
  rw [he] at hT2
  generalize ct (lowpass_index prev curr) = e at hT2 ⊢
  generalize lowpass_index prev curr = d at hidx hr hT2
  refine ⟨?_, ?_, ?_⟩
  · intro h
    have h1 := hT2.1
    have h2 := hT2.2
    omega
  · intro h
    have h1 := hT2.1
    have h2 := hT2.2
    omega
  · intro h
    have h1 := hT2.1
    have h2 := hT2.2
    omega

/-- C18. The blend never leaves the interval between its inputs by more
than the quantization error. For every table built in real arithmetic from a
threshold in `[0, 255*(1-0.00001))`: `0 <= ct[4096+i] <= 4096*i` for `i` in
`0..4080`, `4096*i <= ct[4096+i] <= 0` for `i` in `-4080..0`, and
`ct[4096+4080] = ct[4096-4080] = 0`; hence for `prev`, `curr` in
`[0, 255*65536]` the integer result `r = curr + ct[d]` of
`hqdn3d_lowpass_mul` satisfies `curr <= r <= prev + 2047` when
`prev >= curr`, `prev - 2048 <= r <= curr` when `prev <= curr`, and lies
between `curr` and `prev` when `prev - curr` is a multiple of 4096. -/
theorem c18_blend_bounds (ct0 : Coef) (t : ℝ) (h0 : 0 ≤ t)
    (h1 : t < 255 * (1 - 1 / 100000)) :
    (∀ i : Int, 0 ≤ i → i ≤ 4080 →
      0 ≤ hqdn3d_precalc_coef realLibm ct0 t (4096 + i) ∧
      hqdn3d_precalc_coef realLibm ct0 t (4096 + i) ≤ 4096 * i) ∧
    (∀ i : Int, -4080 ≤ i → i ≤ 0 →
      4096 * i ≤ hqdn3d_precalc_coef realLibm ct0 t (4096 + i) ∧
      hqdn3d_precalc_coef realLibm ct0 t (4096 + i) ≤ 0) ∧
    hqdn3d_precalc_coef realLibm ct0 t (4096 + 4080) = 0 ∧
    hqdn3d_precalc_coef realLibm ct0 t (4096 - 4080) = 0 ∧
    (∀ prev curr : Nat, prev ≤ 255 * 65536 → curr ≤ 255 * 65536 →
      hqdn3d_lowpass_mul prev curr (hqdn3d_precalc_coef realLibm ct0 t)
        = u32 ((curr : Int)
            + hqdn3d_precalc_coef realLibm ct0 t (lowpass_index prev curr)) ∧
      (curr ≤ prev →
        (curr : Int) ≤ (curr : Int)
          + hqdn3d_precalc_coef realLibm ct0 t (lowpass_index prev curr) ∧
        (curr : Int) + hqdn3d_precalc_coef realLibm ct0 t (lowpass_index prev curr)
          ≤ (prev : Int) + 2047) ∧
      (prev ≤ curr →
        (prev : Int) - 2048 ≤ (curr : Int)
          + hqdn3d_precalc_coef realLibm ct0 t (lowpass_index prev curr) ∧
        (curr : Int) + hqdn3d_precalc_coef realLibm ct0 t (lowpass_index prev curr)
          ≤ (curr : Int)) ∧
      ((4096 : Int) ∣ (prev : Int) - (curr : Int) →
        min (prev : Int) (curr : Int) ≤ (curr : Int)
          + hqdn3d_precalc_coef realLibm ct0 t (lowpass_index prev curr) ∧
        (curr : Int) + hqdn3d_precalc_coef realLibm ct0 t (lowpass_index prev curr)
          ≤ max (prev : Int) (curr : Int))) := by
  have hT := precalc_entries_bounded ct0 t h0 h1
  have hend : hqdn3d_precalc_coef realLibm ct0 t (4096 + 4080) = 0 := by
    rw [precalc_coef_apply realLibm ct0 t (4096 + 4080) (by omega)]
    exact entry_end t h0 h1
  refine ⟨fun i hi0 hi => (hT i (by omega) hi).1 hi0,
    fun i hlo hi => (hT i hlo (by omega)).2 hi, hend, ?_, ?_⟩
  · have hs := table_odd realLibm ct0 t 4080 (by decide) (by decide)
    rw [hs, hend, neg_zero]
  · intro prev curr hp hc
    exact ⟨rfl, lowpass_bounds _ hT prev curr hp hc⟩

/-- C18, for the real-arithmetic table of threshold 4. -/
theorem c18_blend_bounds_witness :
    ((0 : ℝ) ≤ 4 ∧ (4 : ℝ) < 255 * (1 - 1 / 100000)) ∧
    hqdn3d_precalc_coef realLibm (fun _ => 0) 4 (4096 + 4080) = 0 :=
  ⟨⟨by norm_num, by norm_num⟩,
    (c18_blend_bounds (fun _ => 0) 4 (by norm_num) (by norm_num)).2.2.1⟩

/-- With a current value that is a multiple of 4096 the blend stays in
`[0, 255<<16]` and does not wrap. -/
theorem lowpass_aligned (ct : Coef) (hT : entries_bounded ct) (prev curr : Nat)
    (hp : prev ≤ 255 * 65536) (hc : curr ≤ 255 * 65536) (hal : 4096 ∣ curr) :
    (16 ≤ lowpass_index prev curr ∧ lowpass_index prev curr ≤ 8176) ∧
    hqdn3d_lowpass_mul prev curr ct ≤ 255 * 65536 ∧
    ((hqdn3d_lowpass_mul prev curr ct : Nat) : Int)
      = (curr : Int) + ct (lowpass_index prev curr) := by
  have hidx := lowpass_index_eq prev curr hp hc
  have hr := index_range prev curr hp hc
  have hT2 := hT (lowpass_index prev curr - 4096) (by omega) (by omega)
  have he : (4096 : Int) + (lowpass_index prev curr - 4096) = lowpass_index prev curr := by
    ring
  rw [he] at hT2
  simp only [hqdn3d_lowpass_mul, u32]
  generalize ct (lowpass_index prev curr) = e at hT2 ⊢
  generalize lowpass_index prev curr = d at hidx hr hT2 ⊢
  have h1 := hT2.1
  have h2 := hT2.2
  refine ⟨hr, ?_, ?_⟩ <;> omega

theorem shl16_aligned (v : Nat) (hv : v < 256) :
    v <<< 16 ≤ 255 * 65536 ∧ 4096 ∣ v <<< 16 := by
  simp only [Nat.shiftLeft_eq]
  constructor <;> omega

theorem store_fits (tmp : Nat) (ht : tmp ≤ 255 * 65536) :
    store_ant tmp = (tmp + 0x7F) >>> 8 ∧ (tmp + 0x7F) >>> 8 ≤ 255 * 256 ∧
    store_dst tmp = (tmp + 0x7FFF) >>> 16 ∧ (tmp + 0x7FFF) >>> 16 ≤ 255 := by
  simp only [store_ant, store_dst, Nat.shiftRight_eq_div_pow]
  refine ⟨?_, ?_, ?_, ?_⟩ <;> omega

/-- C17. Temporal-only range invariant, for a temporal table built in real
arithmetic from a threshold in `[0, 255*(1-0.00001))` and a plane of 8-bit
samples: every previous-frame entry is at most `255*256` after seeding; and
if every entry is at most `255*256` on entry of `hqdn3d_denoise_temporal`,
then at every offset the table index is in `16..8176`, the blend result
`tmp` is in `[0, 255*65536]` without wrap-around, the stores
`(tmp+0x7F)>>8` and `(tmp+0x7FFF)>>16` fit in 16 and 8 bits without
truncation, and the new entry is again at most `255*256`. -/
theorem c17_temporal_invariant (ct0 : Coef) (t : ℝ) (h0 : 0 ≤ t)
    (h1 : t < 255 * (1 - 1 / 100000)) (src dst ant : Buf) (w h : Nat)
    (hsrc : ∀ p, p < w * h → src p < 256) :
    (∀ p, seed_frame_ant src w h p ≤ 255 * 256) ∧
    ((∀ p, p < w * h → ant p ≤ 255 * 256) →
      ∀ p, p < w * h →
        (16 ≤ lowpass_index (ant p <<< 8) (src p <<< 16) ∧
          lowpass_index (ant p <<< 8) (src p <<< 16) ≤ 8176) ∧
        hqdn3d_lowpass_mul (ant p <<< 8) (src p <<< 16)
          (hqdn3d_precalc_coef realLibm ct0 t) ≤ 255 * 65536 ∧
        ((hqdn3d_lowpass_mul (ant p <<< 8) (src p <<< 16)
            (hqdn3d_precalc_coef realLibm ct0 t) : Nat) : Int)
          = ((src p <<< 16 : Nat) : Int)
            + hqdn3d_precalc_coef realLibm ct0 t
                (lowpass_index (ant p <<< 8) (src p <<< 16)) ∧
        (hqdn3d_denoise_temporal src dst ant w h
            (hqdn3d_precalc_coef realLibm ct0 t)).frame_ant p
          = (hqdn3d_lowpass_mul (ant p <<< 8) (src p <<< 16)
              (hqdn3d_precalc_coef realLibm ct0 t) + 0x7F) >>> 8 ∧
        (hqdn3d_denoise_temporal src dst ant w h
            (hqdn3d_precalc_coef realLibm ct0 t)).frame_ant p ≤ 255 * 256 ∧
        (hqdn3d_denoise_temporal src dst ant w h
            (hqdn3d_precalc_coef realLibm ct0 t)).frame_dst p
          = (hqdn3d_lowpass_mul (ant p <<< 8) (src p <<< 16)
              (hqdn3d_precalc_coef realLibm ct0 t) + 0x7FFF) >>> 16 ∧
        (hqdn3d_denoise_temporal src dst ant w h
            (hqdn3d_precalc_coef realLibm ct0 t)).frame_dst p ≤ 255) := by
  have hT := precalc_entries_bounded ct0 t h0 h1
  constructor
  · intro p
    rw [seed_frame_ant_apply]
    by_cases hp : p < h * w
    · have hs := hsrc p (by rw [Nat.mul_comm]; exact hp)
      rw [if_pos hp, Nat.shiftLeft_eq]
      omega
    · rw [if_neg hp]
      omega
  · intro hant p hp
    have hp2 : p < h * w := by rw [Nat.mul_comm]; exact hp
    have ha : ant p <<< 8 ≤ 255 * 65536 := by
      have := hant p hp
      rw [Nat.shiftLeft_eq]
      omega
    have hs := shl16_aligned (src p) (hsrc p hp)
    have hl := lowpass_aligned _ hT (ant p <<< 8) (src p <<< 16) ha hs.1 hs.2
    have hf := store_fits _ hl.2.1
    rw [denoise_temporal_eq]
    simp only [temporal_after, if_pos hp2]
    exact ⟨hl.1, hl.2.1, hl.2.2, hf.1, hf.1 ▸ hf.2.1, hf.2.2.1, hf.2.2.1 ▸ hf.2.2.2⟩

/-- C17, on a 2x2 plane with the real-arithmetic table of threshold 6. -/
theorem c17_temporal_invariant_witness :
    ((0 : ℝ) ≤ 6 ∧ (6 : ℝ) < 255 * (1 - 1 / 100000) ∧
      ∀ p, p < 2 * 2 → (fun q => 60 * q + 7 : Buf) p < 256) ∧
    ∀ p, seed_frame_ant (fun q => 60 * q + 7) 2 2 p ≤ 255 * 256 := by
  have hs : ∀ p, p < 2 * 2 → (fun q => 60 * q + 7 : Buf) p < 256 := by
    intro p hp
    simp only
    omega
  exact ⟨⟨by norm_num, by norm_num, hs⟩,
    (c17_temporal_invariant (fun _ => 0) 6 (by norm_num) (by norm_num)
      (fun q => 60 * q + 7) (fun _ => 0) (fun _ => 0) 2 2 hs).1⟩

/-! ## The spatial pass leaves the sample range -/

theorem entry_gamma_one_neg48 :
    precalc_entry realLibm (255 * (3 / 4 - 1 / 100000)) (-48) = -194295 := by
  simp only [precalc_entry, precalc_c_gamma_one, truncToInt]
  norm_num
  rw [Int.ceil_eq_iff]
  norm_num

theorem entry_gamma_one_neg1 :
    precalc_entry realLibm (255 * (3 / 4 - 1 / 100000)) (-1) = -4095 := by
  simp only [precalc_entry, precalc_c_gamma_one, truncToInt]
  norm_num
  rw [Int.ceil_eq_iff]
  norm_num

theorem index_eval_c : lowpass_index 0 196608 = 4048 := by
  simp only [lowpass_index, i32, shiftRight12]
  norm_num

theorem index_eval_d : lowpass_index 0 2313 = 4095 := by
  simp only [lowpass_index, i32, shiftRight12]
  norm_num

theorem index_eval_e : lowpass_index 196608 4294965514 = 4144 := by
  simp only [lowpass_index, i32, shiftRight12]
  norm_num

theorem spatialV_eval_dark (sp : Coef) (h0 : sp 4096 = 0) (h1 : sp 4048 = -194295)
    (h2 : sp 4095 = -4095) :
    spatialV (fun q => if q = 3 then 3 else 0) sp 2 1 1 = 4294965514 := by
  have hz : hqdn3d_lowpass_mul 0 0 sp = 0 := lowpass_self sp h0 0 (by decide)
  have e1 : (3 : Nat) <<< 16 = 196608 := by decide
  have e2 : (0 : Nat) <<< 16 = 0 := by decide
  have hH : rowH (fun q => if q = 3 then 3 else 0) sp 2 = 0 := by
    simp only [rowH]
    norm_num [e2, hz]
  have hP : rowP (fun q => if q = 3 then 3 else 0) sp 2 1 1 = 2313 := by
    simp only [rowP]
    norm_num [e1, e2]
    rw [hqdn3d_lowpass_mul, index_eval_c, h1]
    decide
  simp only [spatialV]
  rw [hH, hP, hqdn3d_lowpass_mul, index_eval_d, h2]
  decide

theorem index_eval_f : lowpass_index 16775424 4294965514 = 8192 := by
  simp only [lowpass_index, i32, shiftRight12]
  norm_num

theorem dark_src_lt (p : Nat) : (fun q => if q = 3 then 3 else 0 : Buf) p < 256 := by
  simp only
  split <;> omega

/-- First frame of the 2x2 plane `0, 0 / 0, 3` through the spatial pass, for
tables with the entries that the run looks up. -/
theorem dark_first_frame (sp tp : Coef) (dst line : Buf) (hsp : sp 0 ≠ 0)
    (h0 : sp 4096 = 0) (h1 : sp 4048 = -194295) (h2 : sp 4095 = -4095)
    (ht : tp 4144 = 0) :
    (hqdn3d_denoise (fun q => if q = 3 then 3 else 0) dst line none 2 2 sp tp).line_ant 1
      = 4294965514 ∧
    (hqdn3d_denoise (fun q => if q = 3 then 3 else 0) dst line none 2 2 sp tp).frame_ant 3
      = 65529 := by
  have hV := spatialV_eval_dark sp h0 h1 h2
  constructor
  · rw [denoise_eq_spatial _ _ _ none 2 2 _ _ hsp]
    simp only [denoise_spatial_line _ _ _ _ 2 2 _ _ (by decide) (by decide)]
    rw [if_pos (by decide)]
    exact hV
  · rw [denoise_eq_spatial _ _ _ none 2 2 _ _ hsp]
    simp only [denoise_spatial_ant _ _ _ _ 2 2 _ _ (by decide) (by decide)]
    rw [if_pos (by decide), spatial_tmp, seed_eq_shl _ 2 2 3 (by decide) (dark_src_lt 3)]
    have e1 : (3 : Nat) / 2 = 1 := by decide
    have e2 : (3 : Nat) % 2 = 1 := by decide
    have e3 : (((fun q => if q = 3 then 3 else 0 : Buf) 3) <<< 8) <<< 8 = 196608 := by decide
    rw [e1, e2, hV, e3, hqdn3d_lowpass_mul, index_eval_e, ht]
    decide

/-- A later frame of the same plane, with the previous-frame entry `fa[3]`
left by the first one: the temporal blend of the last pixel. -/
theorem dark_next_frame (sp tp : Coef) (dst line fa : Buf) (hsp : sp 0 ≠ 0)
    (h0 : sp 4096 = 0) (h1 : sp 4048 = -194295) (h2 : sp 4095 = -4095) :
    (hqdn3d_denoise (fun q => if q = 3 then 3 else 0) dst line (some fa) 2 2 sp tp).frame_dst 3
      = store_dst (hqdn3d_lowpass_mul (fa 3 <<< 8) 4294965514 tp) := by
  have hV := spatialV_eval_dark sp h0 h1 h2
  rw [denoise_eq_spatial _ _ _ (some fa) 2 2 _ _ hsp]
  simp only [denoise_spatial_dst _ _ _ _ 2 2 _ _ (by decide) (by decide)]
  rw [if_pos (by decide), spatial_tmp]
  have e1 : (3 : Nat) / 2 = 1 := by decide
  have e2 : (3 : Nat) % 2 = 1 := by decide
  rw [e1, e2, hV]

theorem gamma_one_entries :
    hqdn3d_precalc_coef realLibm (fun _ => 0) (255 * (3 / 4 - 1 / 100000)) 0 ≠ 0 ∧
    hqdn3d_precalc_coef realLibm (fun _ => 0) (255 * (3 / 4 - 1 / 100000)) 4096 = 0 ∧
    hqdn3d_precalc_coef realLibm (fun _ => 0) (255 * (3 / 4 - 1 / 100000)) 4048 = -194295 ∧
    hqdn3d_precalc_coef realLibm (fun _ => 0) (255 * (3 / 4 - 1 / 100000)) 4095 = -4095 := by
  have hT : (255 * (3 / 4 - 1 / 100000) : ℝ) ≠ 0 := by norm_num
  refine ⟨?_, precalc_coef_mid realLibm (fun _ => 0) _, ?_, ?_⟩
  · rw [precalc_coef_zero, if_pos hT]
    exact one_ne_zero
  · rw [precalc_coef_apply realLibm _ _ 4048 (by omega)]
    have h3 : (4048 : Int) - 4096 = -48 := by norm_num
    rw [h3, entry_gamma_one_neg48]
  · rw [precalc_coef_apply realLibm _ _ 4095 (by omega)]
    have h3 : (4095 : Int) - 4096 = -1 := by norm_num
    rw [h3, entry_gamma_one_neg1]

/-- Outside the written range and slot 0 the builder leaves the memory as it
finds it. -/
theorem precalc_coef_outside {K : Type} [LinearOrderedField K] [FloorRing K]
    (m : Libm K) (ct0 : Coef) (t : K) (k : Int) (hk0 : k ≠ 0)
    (hk : ¬ (16 ≤ k ∧ k ≤ 8176)) : hqdn3d_precalc_coef m ct0 t k = ct0 k := by
  rw [hqdn3d_precalc_coef, Function.update_noteq hk0, precalc_loop_apply, if_neg hk]

/-- C12 fails on the code. The 2x2 plane `0, 0 / 0, 3` is fed twice, with
the spatial table built in real arithmetic from the threshold
`255*(3/4 - 0.00001)` (`gamma = 1`) and the temporal table from the
threshold 0. On the first frame the vertical blend of the last pixel is
`2313 - 4095`, which wraps to `4294965514` in the row accumulator, and the
value stored to the previous-frame buffer is `65529`, above `255*256`. On
the second frame the temporal blend of that pixel, which gives `dst[3]`,
looks up index `8192`, one past the last entry of `int[512*16]`. -/
theorem c12_spatial_leaves_range :
    ((0 : ℝ) < 255 * (3 / 4 - 1 / 100000) ∧
      (255 * (3 / 4 - 1 / 100000) : ℝ) < 255 * (1 - 1 / 100000)) ∧
    (∀ p, p < 2 * 2 → (fun q => if q = 3 then 3 else 0 : Buf) p < 256) ∧
    (hqdn3d_denoise (fun q => if q = 3 then 3 else 0) (fun _ => 0) (fun _ => 0) none 2 2
      (hqdn3d_precalc_coef realLibm (fun _ => 0) (255 * (3 / 4 - 1 / 100000)))
      (hqdn3d_precalc_coef realLibm (fun _ => 0) 0)).line_ant 1 = 4294965514 ∧
    255 * 65536 < 4294965514 ∧
    (hqdn3d_denoise (fun q => if q = 3 then 3 else 0) (fun _ => 0) (fun _ => 0) none 2 2
      (hqdn3d_precalc_coef realLibm (fun _ => 0) (255 * (3 / 4 - 1 / 100000)))
      (hqdn3d_precalc_coef realLibm (fun _ => 0) 0)).frame_ant 3 = 65529 ∧
    255 * 256 < 65529 ∧
    (hqdn3d_denoise (fun q => if q = 3 then 3 else 0) (fun _ => 0)
      (hqdn3d_denoise (fun q => if q = 3 then 3 else 0) (fun _ => 0) (fun _ => 0) none 2 2
        (hqdn3d_precalc_coef realLibm (fun _ => 0) (255 * (3 / 4 - 1 / 100000)))
        (hqdn3d_precalc_coef realLibm (fun _ => 0) 0)).line_ant
      (some (hqdn3d_denoise (fun q => if q = 3 then 3 else 0) (fun _ => 0) (fun _ => 0)
        none 2 2
        (hqdn3d_precalc_coef realLibm (fun _ => 0) (255 * (3 / 4 - 1 / 100000)))
        (hqdn3d_precalc_coef realLibm (fun _ => 0) 0)).frame_ant) 2 2
      (hqdn3d_precalc_coef realLibm (fun _ => 0) (255 * (3 / 4 - 1 / 100000)))
      (hqdn3d_precalc_coef realLibm (fun _ => 0) 0)).frame_dst 3
      = store_dst (hqdn3d_lowpass_mul (65529 <<< 8) 4294965514
          (hqdn3d_precalc_coef realLibm (fun _ => 0) 0)) ∧
    lowpass_index (65529 <<< 8) 4294965514 = 8192 ∧
    (512 * 16 : Int) ≤ 8192 := by
  have hg := gamma_one_entries
  have ht := table_zero_threshold (fun _ => 0) 4144 (by omega)
  have h1 := dark_first_frame _ _ (fun _ => 0) (fun _ => 0) hg.1 hg.2.1 hg.2.2.1 hg.2.2.2 ht
  have h2 := dark_next_frame
    (hqdn3d_precalc_coef realLibm (fun _ => 0) (255 * (3 / 4 - 1 / 100000)))
    (hqdn3d_precalc_coef realLibm (fun _ => 0) 0) (fun _ => 0)
    (hqdn3d_denoise (fun q => if q = 3 then 3 else 0) (fun _ => 0) (fun _ => 0) none 2 2
      (hqdn3d_precalc_coef realLibm (fun _ => 0) (255 * (3 / 4 - 1 / 100000)))
      (hqdn3d_precalc_coef realLibm (fun _ => 0) 0)).line_ant
    (hqdn3d_denoise (fun q => if q = 3 then 3 else 0) (fun _ => 0) (fun _ => 0) none 2 2
      (hqdn3d_precalc_coef realLibm (fun _ => 0) (255 * (3 / 4 - 1 / 100000)))
      (hqdn3d_precalc_coef realLibm (fun _ => 0) 0)).frame_ant
    hg.1 hg.2.1 hg.2.2.1 hg.2.2.2
  rw [h1.2] at h2
  have e : (65529 : Nat) <<< 8 = 16775424 := by decide
  refine ⟨⟨by norm_num, by norm_num⟩, fun p _ => dark_src_lt p, h1.1, by decide, h1.2,
    by decide, h2, ?_, by norm_num⟩
  rw [e]
  exact index_eval_f

/-! ## Range of the horizontal running value -/

theorem rowH_range (sp : Coef) (hT : entries_bounded sp) (src : Buf) (w h : Nat)
    (hw : 1 ≤ w) (hh : 1 ≤ h) (hsrc : ∀ p, p < w * h → src p < 256) (k : Nat)
    (hk : k ≤ w) : rowH src sp k ≤ 255 * 65536 := by
  induction k with
  | zero =>
    have h1 : 0 < w * h := Nat.mul_pos hw hh
    simp only [rowH]
    exact (shl16_aligned _ (hsrc 0 h1)).1
  | succ k ih =>
    have h1 : k < w * h := by
      have := offset_lt w h 0 k hh (by omega)
      omega
    have hs := shl16_aligned _ (hsrc k h1)
    simp only [rowH]
    exact (lowpass_aligned sp hT _ _ (ih (by omega)) hs.1 hs.2).2.1

theorem rowP_range (sp : Coef) (hT : entries_bounded sp) (src : Buf) (w h : Nat)
    (hsrc : ∀ p, p < w * h → src p < 256) (y : Nat) (hy : y < h) (x : Nat)
    (hx : x < w) : rowP src sp w y x ≤ 255 * 65536 := by
  induction x with
  | zero =>
    have h1 := offset_lt w h y 0 hy hx
    simp only [rowP]
    exact (shl16_aligned _ (hsrc (y * w) (by omega))).1
  | succ x ih =>
    have h1 := offset_lt w h y (x + 1) hy hx
    have hs := shl16_aligned _ (hsrc _ h1)
    simp only [rowP]
    exact (lowpass_aligned sp hT _ _ (ih (by omega)) hs.1 hs.2).2.1

/-- What does hold of the spatial pass. For a spatial table built in real
arithmetic from a threshold in `(0, 255*(1-0.00001))`, `w >= 1`, `h >= 1` and a plane of 8-bit
samples: every call of `hqdn3d_lowpass_mul` that advances the horizontal
running value `pixel_ant` (on the first row, where the result is also stored
in `line_ant[x]`, and on the rows `1..h-1`) indexes the table inside
`16..8176`, and every value of `pixel_ant` lies in `[0, 255*65536]` without
wrap-around; the vertical blend of row 1 indexes the table inside `16..8176`
and its integer result lies in `[-2048, 255*65536 + 2047]`. -/
theorem horizontal_range (ct0 : Coef) (t : ℝ) (h0 : 0 < t)
    (h1 : t < 255 * (1 - 1 / 100000)) (src : Buf) (w h : Nat) (hw : 1 ≤ w) (hh : 1 ≤ h)
    (hsrc : ∀ p, p < w * h → src p < 256) :
    (∀ k, k < w →
      rowH src (hqdn3d_precalc_coef realLibm ct0 t) k ≤ 255 * 65536 ∧
      (16 ≤ lowpass_index (rowH src (hqdn3d_precalc_coef realLibm ct0 t) k) (src k <<< 16) ∧
        lowpass_index (rowH src (hqdn3d_precalc_coef realLibm ct0 t) k) (src k <<< 16)
          ≤ 8176) ∧
      rowH src (hqdn3d_precalc_coef realLibm ct0 t) (k + 1) ≤ 255 * 65536 ∧
      ((rowH src (hqdn3d_precalc_coef realLibm ct0 t) (k + 1) : Nat) : Int)
        = ((src k <<< 16 : Nat) : Int)
          + hqdn3d_precalc_coef realLibm ct0 t
              (lowpass_index (rowH src (hqdn3d_precalc_coef realLibm ct0 t) k)
                (src k <<< 16))) ∧
    (∀ y x, y < h → x + 1 < w →
      rowP src (hqdn3d_precalc_coef realLibm ct0 t) w y x ≤ 255 * 65536 ∧
      (16 ≤ lowpass_index (rowP src (hqdn3d_precalc_coef realLibm ct0 t) w y x)
          (src (y * w + (x + 1)) <<< 16) ∧
        lowpass_index (rowP src (hqdn3d_precalc_coef realLibm ct0 t) w y x)
          (src (y * w + (x + 1)) <<< 16) ≤ 8176) ∧
      rowP src (hqdn3d_precalc_coef realLibm ct0 t) w y (x + 1) ≤ 255 * 65536 ∧
      ((rowP src (hqdn3d_precalc_coef realLibm ct0 t) w y (x + 1) : Nat) : Int)
        = ((src (y * w + (x + 1)) <<< 16 : Nat) : Int)
          + hqdn3d_precalc_coef realLibm ct0 t
              (lowpass_index (rowP src (hqdn3d_precalc_coef realLibm ct0 t) w y x)
                (src (y * w + (x + 1)) <<< 16))) ∧
    (∀ x, x < w →
      spatialV src (hqdn3d_precalc_coef realLibm ct0 t) w 0 x ≤ 255 * 65536) ∧
    (∀ x, x < w → 1 < h →
      (16 ≤ lowpass_index (spatialV src (hqdn3d_precalc_coef realLibm ct0 t) w 0 x)
          (rowP src (hqdn3d_precalc_coef realLibm ct0 t) w 1 x) ∧
        lowpass_index (spatialV src (hqdn3d_precalc_coef realLibm ct0 t) w 0 x)
          (rowP src (hqdn3d_precalc_coef realLibm ct0 t) w 1 x) ≤ 8176) ∧
      -2048 ≤ ((rowP src (hqdn3d_precalc_coef realLibm ct0 t) w 1 x : Nat) : Int)
        + hqdn3d_precalc_coef realLibm ct0 t
            (lowpass_index (spatialV src (hqdn3d_precalc_coef realLibm ct0 t) w 0 x)
              (rowP src (hqdn3d_precalc_coef realLibm ct0 t) w 1 x)) ∧
      ((rowP src (hqdn3d_precalc_coef realLibm ct0 t) w 1 x : Nat) : Int)
        + hqdn3d_precalc_coef realLibm ct0 t
            (lowpass_index (spatialV src (hqdn3d_precalc_coef realLibm ct0 t) w 0 x)
              (rowP src (hqdn3d_precalc_coef realLibm ct0 t) w 1 x))
        ≤ 255 * 65536 + 2047) := by
  have hT := precalc_entries_bounded ct0 t (le_of_lt h0) h1
  have hH := rowH_range _ hT src w h hw hh hsrc
  have hP := rowP_range _ hT src w h hsrc
  refine ⟨?_, ?_, ?_, ?_⟩
  · intro k hk
    have hkk : k < w * h := by
      have := offset_lt w h 0 k hh hk
      omega
    have hs := shl16_aligned _ (hsrc k hkk)
    have hl := lowpass_aligned _ hT _ _ (hH k (by omega)) hs.1 hs.2
    exact ⟨hH k (by omega), hl.1, hH (k + 1) (by omega), hl.2.2⟩
  · intro y x hy hx
    have hs := shl16_aligned _ (hsrc _ (offset_lt w h y (x + 1) hy hx))
    have hl := lowpass_aligned _ hT _ _ (hP y hy x (by omega)) hs.1 hs.2
    exact ⟨hP y hy x (by omega), hl.1, hP y hy (x + 1) hx, hl.2.2⟩
  · intro x hx
    exact hH (x + 1) (by omega)
  · intro x hx h2
    have hv : spatialV src (hqdn3d_precalc_coef realLibm ct0 t) w 0 x ≤ 255 * 65536 :=
      hH (x + 1) (by omega)
    have hp := hP 1 h2 x hx
    have hb := lowpass_bounds _ hT _ _ hv hp
    have hr := index_range _ _ hv hp
    refine ⟨hr, ?_, ?_⟩
    · rcases Nat.le_total (rowP src (hqdn3d_precalc_coef realLibm ct0 t) w 1 x)
          (spatialV src (hqdn3d_precalc_coef realLibm ct0 t) w 0 x) with hle | hle
      · have := (hb.1 hle).1
        omega
      · have := (hb.2.1 hle).1
        omega
    · rcases Nat.le_total (rowP src (hqdn3d_precalc_coef realLibm ct0 t) w 1 x)
          (spatialV src (hqdn3d_precalc_coef realLibm ct0 t) w 0 x) with hle | hle
      · have := (hb.1 hle).2
        omega
      · have := (hb.2.1 hle).2
        omega

/-! ## The spatial loop and the plain recurrence -/

/-- C14. The spatial loop equals the plain recurrence. With `Ls`, `Lt` the
blend with the spatial and temporal table: `V(0,x) = H(x)`,
`H(-1) = src[0][0]<<16`, `H(x) = Ls(H(x-1), src[0][x]<<16)` (here
`rowH (x+1)` is `H(x)`); for `y >= 1`, `V(y,x) = Ls(V(y-1,x), P(y,x))` with
`P(y,0) = src[y][0]<<16`, `P(y,x) = Ls(P(y,x-1), src[y][x]<<16)`. For
`w >= 1`, `h >= 1`, `hqdn3d_denoise_spatial` computes for every pixel
`(x, y)`, last column included, `T = Lt(prev[y][x]<<8, V(y,x))`, stores
`(T + 0x7F) >> 8` truncated to 16 bits in `prev[y][x]` and
`(T + 0x7FFF) >> 16` truncated to 8 bits in `dst[y][x]`; the row accumulator
holds `V(y,x)` once row `y` is done, and `V(h-1,x)` on return. -/
theorem c14_spatial_recurrence (src dst line ant : Buf) (w h : Nat) (sp tp : Coef)
    (hw : 1 ≤ w) (hh : 1 ≤ h) :
    (rowH src sp 0 = src 0 <<< 16 ∧
      (∀ x, rowH src sp (x + 1) = hqdn3d_lowpass_mul (rowH src sp x) (src x <<< 16) sp) ∧
      (∀ x, spatialV src sp w 0 x = rowH src sp (x + 1)) ∧
      (∀ y, rowP src sp w y 0 = src (y * w) <<< 16) ∧
      (∀ y x, rowP src sp w y (x + 1)
        = hqdn3d_lowpass_mul (rowP src sp w y x) (src (y * w + (x + 1)) <<< 16) sp) ∧
      (∀ y x, spatialV src sp w (y + 1) x
        = hqdn3d_lowpass_mul (spatialV src sp w y x) (rowP src sp w (y + 1) x) sp)) ∧
    (∀ y x, y < h → x < w →
      (hqdn3d_denoise_spatial src dst line ant w h sp tp).frame_ant (y * w + x)
        = (((hqdn3d_lowpass_mul (ant (y * w + x) <<< 8) (spatialV src sp w y x) tp
            + 0x7F) % 2 ^ 32) >>> 8) % 2 ^ 16 ∧
      (hqdn3d_denoise_spatial src dst line ant w h sp tp).frame_dst (y * w + x)
        = (((hqdn3d_lowpass_mul (ant (y * w + x) <<< 8) (spatialV src sp w y x) tp
            + 0x7FFF) % 2 ^ 32) >>> 16) % 2 ^ 8 ∧
      (hqdn3d_denoise_spatial src dst line ant w (y + 1) sp tp).line_ant x
        = spatialV src sp w y x) ∧
    (∀ x, x < w →
      (hqdn3d_denoise_spatial src dst line ant w h sp tp).line_ant x
        = spatialV src sp w (h - 1) x) := by
  refine ⟨⟨rfl, fun _ => rfl, fun _ => rfl, fun _ => rfl, fun _ _ => rfl, fun _ _ => rfl⟩,
    ?_, ?_⟩
  · intro y x hy hx
    have hp : y * w + x < h * w := by
      have h1 := offset_lt w h y x hy hx
      have h2 : w * h = h * w := Nat.mul_comm w h
      omega
    rw [denoise_spatial_ant src dst line ant w h sp tp hw hh,
      denoise_spatial_dst src dst line ant w h sp tp hw hh,
      denoise_spatial_line src dst line ant w (y + 1) sp tp hw (by omega)]
    simp only [if_pos hp, if_pos hx, spatial_tmp, offset_div w y x hx, offset_mod w y x hx,
      store_ant, store_dst, Nat.add_sub_cancel]
    exact ⟨trivial, trivial, trivial⟩
  · intro x hx
    rw [denoise_spatial_line src dst line ant w h sp tp hw hh, if_pos hx]

/-- C14, on a 1x1 plane: the only pixel is the last column of the first row. -/
theorem c14_spatial_recurrence_witness :
    (1 ≤ 1) ∧
    ∀ x, x < 1 →
      (hqdn3d_denoise_spatial (fun _ => 7) (fun _ => 0) (fun _ => 0) (fun _ => 0) 1 1
        (fun _ => 0) (fun _ => 0)).line_ant x
        = spatialV (fun _ => 7) (fun _ => 0) 1 (1 - 1) x :=
  ⟨by decide,
    (c14_spatial_recurrence (fun _ => 7) (fun _ => 0) (fun _ => 0) (fun _ => 0) 1 1
      (fun _ => 0) (fun _ => 0) (by decide) (by decide)).2.2⟩

/-! ## Stale row-accumulator contents -/

/-- Within one call, with the same tables and the same memory around them,
`dst` and the previous-frame buffer do not depend on what the row
accumulator holds on entry. -/
theorem denoise_line_independent (src dst line1 line2 : Buf) (fa : Option Buf)
    (w h : Nat) (sp tp : Coef) (hw : 1 ≤ w) (hh : 1 ≤ h) :
    (hqdn3d_denoise src dst line1 fa w h sp tp).frame_dst
      = (hqdn3d_denoise src dst line2 fa w h sp tp).frame_dst ∧
    (hqdn3d_denoise src dst line1 fa w h sp tp).frame_ant
      = (hqdn3d_denoise src dst line2 fa w h sp tp).frame_ant := by
  by_cases hsp : sp 0 = 0
  · rw [denoise_eq_temporal src dst line1 fa w h sp tp hsp,
      denoise_eq_temporal src dst line2 fa w h sp tp hsp]
    exact ⟨rfl, rfl⟩
  · rw [denoise_eq_spatial src dst line1 fa w h sp tp hsp,
      denoise_eq_spatial src dst line2 fa w h sp tp hsp]
    constructor
    · funext p
      simp only [denoise_spatial_dst _ _ _ _ w h sp tp hw hh]
    · funext p
      simp only [denoise_spatial_ant _ _ _ _ w h sp tp hw hh]

/-- C16 fails on the code. The 2x2 plane `0, 0 / 0, 3` is fed twice from a
reset stage, with the spatial table built in real arithmetic from the
threshold `255*(3/4 - 0.00001)` and the temporal table from the threshold 0.
Two runs whose temporal tables hold the same 8192 entries and differ only in
the word that follows the table in memory (0 in one run, 5000000 in the
other) give different second frames, `dst[3] = 0` against `dst[3] = 76`: the
temporal blend of that pixel reads index 8192. -/
theorem c16_output_depends_on_memory :
    (∀ k : Int, 0 ≤ k → k < 512 * 16 →
      hqdn3d_precalc_coef realLibm (fun _ => 0) 0 k
        = hqdn3d_precalc_coef realLibm (fun j => if j = 8192 then 5000000 else 0) 0 k) ∧
    (hqdn3d_denoise (fun q => if q = 3 then 3 else 0) (fun _ => 0)
      (hqdn3d_denoise (fun q => if q = 3 then 3 else 0) (fun _ => 0) (fun _ => 0) none 2 2
        (hqdn3d_precalc_coef realLibm (fun _ => 0) (255 * (3 / 4 - 1 / 100000)))
        (hqdn3d_precalc_coef realLibm (fun _ => 0) 0)).line_ant
      (some (hqdn3d_denoise (fun q => if q = 3 then 3 else 0) (fun _ => 0) (fun _ => 0)
        none 2 2
        (hqdn3d_precalc_coef realLibm (fun _ => 0) (255 * (3 / 4 - 1 / 100000)))
        (hqdn3d_precalc_coef realLibm (fun _ => 0) 0)).frame_ant) 2 2
      (hqdn3d_precalc_coef realLibm (fun _ => 0) (255 * (3 / 4 - 1 / 100000)))
      (hqdn3d_precalc_coef realLibm (fun _ => 0) 0)).frame_dst 3 = 0 ∧
    (hqdn3d_denoise (fun q => if q = 3 then 3 else 0) (fun _ => 0)
      (hqdn3d_denoise (fun q => if q = 3 then 3 else 0) (fun _ => 0) (fun _ => 0) none 2 2
        (hqdn3d_precalc_coef realLibm (fun _ => 0) (255 * (3 / 4 - 1 / 100000)))
        (hqdn3d_precalc_coef realLibm (fun j => if j = 8192 then 5000000 else 0) 0)).line_ant
      (some (hqdn3d_denoise (fun q => if q = 3 then 3 else 0) (fun _ => 0) (fun _ => 0)
        none 2 2
        (hqdn3d_precalc_coef realLibm (fun _ => 0) (255 * (3 / 4 - 1 / 100000)))
        (hqdn3d_precalc_coef realLibm (fun j => if j = 8192 then 5000000 else 0) 0)).frame_ant)
      2 2
      (hqdn3d_precalc_coef realLibm (fun _ => 0) (255 * (3 / 4 - 1 / 100000)))
      (hqdn3d_precalc_coef realLibm (fun j => if j = 8192 then 5000000 else 0) 0)).frame_dst 3
      = 76 := by
  have hg := gamma_one_entries
  have e : (65529 : Nat) <<< 8 = 16775424 := by decide
  refine ⟨?_, ?_, ?_⟩
  · intro k hk0 hk1
    by_cases hk : 16 ≤ k ∧ k ≤ 8176
    · rw [precalc_coef_apply realLibm _ 0 k hk, precalc_coef_apply realLibm _ 0 k hk]
    · by_cases hz : k = 0
      · rw [hz, precalc_coef_zero, precalc_coef_zero]
      · have hne : ¬ k = 8192 := by omega
        rw [precalc_coef_outside realLibm _ 0 k hz hk, precalc_coef_outside realLibm _ 0 k hz hk,
          if_neg hne]
  · have ht := table_zero_threshold (fun _ => 0) 4144 (by omega)
    have h1 := dark_first_frame _ _ (fun _ => 0) (fun _ => 0) hg.1 hg.2.1 hg.2.2.1 hg.2.2.2 ht
    rw [dark_next_frame _ _ _ _ _ hg.1 hg.2.1 hg.2.2.1 hg.2.2.2, h1.2, e, hqdn3d_lowpass_mul,
      index_eval_f, precalc_coef_outside realLibm _ 0 8192 (by decide) (by omega)]
    decide
  · have ht := table_zero_threshold (fun j => if j = 8192 then 5000000 else 0) 4144 (by omega)
    have h1 := dark_first_frame _ _ (fun _ => 0) (fun _ => 0) hg.1 hg.2.1 hg.2.2.1 hg.2.2.2 ht
    rw [dark_next_frame _ _ _ _ _ hg.1 hg.2.1 hg.2.2.1 hg.2.2.2, h1.2, e, hqdn3d_lowpass_mul,
      index_eval_f, precalc_coef_outside realLibm _ 0 8192 (by decide) (by omega)]
    decide

/-! ## Offsets read and written -/

theorem rowH_congr (src src2 : Buf) (sp : Coef) (w h : Nat) (hw : 1 ≤ w) (hh : 1 ≤ h)
    (hag : ∀ p, p < w * h → src2 p = src p) (k : Nat) (hk : k ≤ w) :
    rowH src2 sp k = rowH src sp k := by
  induction k with
  | zero =>
    have h1 : 0 < w * h := Nat.mul_pos hw hh
    simp only [rowH, hag 0 h1]
  | succ k ih =>
    have h1 : k < w * h := by
      have := offset_lt w h 0 k hh (by omega)
      omega
    simp only [rowH, ih (by omega), hag k h1]

theorem rowP_congr (src src2 : Buf) (sp : Coef) (w h : Nat)
    (hag : ∀ p, p < w * h → src2 p = src p) (y : Nat) (hy : y < h) (x : Nat)
    (hx : x < w) : rowP src2 sp w y x = rowP src sp w y x := by
  induction x with
  | zero =>
    have h1 := offset_lt w h y 0 hy hx
    simp only [rowP, hag (y * w) (by omega)]
  | succ x ih =>
    have h1 := offset_lt w h y (x + 1) hy hx
    simp only [rowP, ih (by omega), hag _ h1]

theorem spatialV_congr (src src2 : Buf) (sp : Coef) (w h : Nat) (hw : 1 ≤ w)
    (hh : 1 ≤ h) (hag : ∀ p, p < w * h → src2 p = src p) (y : Nat) (hy : y < h)
    (x : Nat) (hx : x < w) : spatialV src2 sp w y x = spatialV src sp w y x := by
  induction y with
  | zero =>
    simp only [spatialV]
    exact rowH_congr src src2 sp w h hw hh hag (x + 1) (by omega)
  | succ y ih =>
    simp only [spatialV, ih (by omega), rowP_congr src src2 sp w h hag (y + 1) hy x hx]

/-- C13. Boundary sizes are in bounds. For `w >= 1`, `h >= 1` (in
particular `w = 1`, `h = 1`): `hqdn3d_denoise_spatial` and
`hqdn3d_denoise_temporal` leave `dst` and the previous-frame buffer as they
were at every offset from `w*h` on, and the row accumulator at every index
from `w` on; what they produce depends on `src` and the previous-frame
buffer only through the offsets below `w*h`, and not at all on the initial
contents of `dst` and of the row accumulator; the step after the inner loop
of a row uses the index `w-1`, which is 0 when `w = 1`. -/
theorem c13_in_bounds (src dst line ant : Buf) (w h : Nat) (sp tp : Coef)
    (hw : 1 ≤ w) (hh : 1 ≤ h) :
    (∀ p, w * h ≤ p →
      (hqdn3d_denoise_spatial src dst line ant w h sp tp).frame_dst p = dst p ∧
      (hqdn3d_denoise_spatial src dst line ant w h sp tp).frame_ant p = ant p) ∧
    (∀ x, w ≤ x → (hqdn3d_denoise_spatial src dst line ant w h sp tp).line_ant x = line x) ∧
    (∀ src2 dst2 line2 ant2 : Buf,
      (∀ p, p < w * h → src2 p = src p) → (∀ p, p < w * h → ant2 p = ant p) →
      (∀ p, p < w * h →
        (hqdn3d_denoise_spatial src2 dst2 line2 ant2 w h sp tp).frame_dst p
          = (hqdn3d_denoise_spatial src dst line ant w h sp tp).frame_dst p ∧
        (hqdn3d_denoise_spatial src2 dst2 line2 ant2 w h sp tp).frame_ant p
          = (hqdn3d_denoise_spatial src dst line ant w h sp tp).frame_ant p) ∧
      (∀ x, x < w →
        (hqdn3d_denoise_spatial src2 dst2 line2 ant2 w h sp tp).line_ant x
          = (hqdn3d_denoise_spatial src dst line ant w h sp tp).line_ant x)) ∧
    (∀ p, w * h ≤ p →
      (hqdn3d_denoise_temporal src dst ant w h tp).frame_dst p = dst p ∧
      (hqdn3d_denoise_temporal src dst ant w h tp).frame_ant p = ant p) ∧
    (∀ src2 dst2 ant2 : Buf,
      (∀ p, p < w * h → src2 p = src p) → (∀ p, p < w * h → ant2 p = ant p) →
      ∀ p, p < w * h →
        (hqdn3d_denoise_temporal src2 dst2 ant2 w h tp).frame_dst p
          = (hqdn3d_denoise_temporal src dst ant w h tp).frame_dst p ∧
        (hqdn3d_denoise_temporal src2 dst2 ant2 w h tp).frame_ant p
          = (hqdn3d_denoise_temporal src dst ant w h tp).frame_ant p) ∧
    (∀ (st : SState) (y : Nat),
      spatial_row src sp tp w st y
        = spatial_last_px sp tp w y
            ((List.range (w - 1)).foldl (spatial_inner_px src sp tp w y)
              { st with pixel_ant := src (y * w) <<< 16 }) (w - 1)) ∧
    (∀ (st : SState) (y : Nat),
      spatial_row src sp tp 1 st y
        = spatial_last_px sp tp 1 y { st with pixel_ant := src (y * 1) <<< 16 } 0) := by
  have hc : w * h = h * w := Nat.mul_comm w h
  refine ⟨?_, ?_, ?_, ?_, ?_, fun _ _ => rfl, fun _ _ => rfl⟩
  · intro p hp
    have hn : ¬ p < h * w := by omega
    rw [denoise_spatial_dst src dst line ant w h sp tp hw hh,
      denoise_spatial_ant src dst line ant w h sp tp hw hh, if_neg hn, if_neg hn]
    exact ⟨rfl, rfl⟩
  · intro x hx
    have hn : ¬ x < w := by omega
    rw [denoise_spatial_line src dst line ant w h sp tp hw hh, if_neg hn]
  · intro src2 dst2 line2 ant2 hs ha
    constructor
    · intro p hp
      have hp2 : p < h * w := by omega
      have hV := spatialV_congr src src2 sp w h hw hh hs (p / w)
        (Nat.div_lt_of_lt_mul hp) (p % w) (Nat.mod_lt p (by omega))
      simp only [denoise_spatial_dst _ _ _ _ w h sp tp hw hh,
        denoise_spatial_ant _ _ _ _ w h sp tp hw hh, if_pos hp2, spatial_tmp, hV, ha p hp]
      exact ⟨trivial, trivial⟩
    · intro x hx
      simp only [denoise_spatial_line _ _ _ _ w h sp tp hw hh, if_pos hx]
      exact spatialV_congr src src2 sp w h hw hh hs (h - 1) (by omega) x hx
  · intro p hp
    have hn : ¬ p < h * w := by omega
    rw [denoise_temporal_eq]
    simp only [temporal_after, if_neg hn]
    exact ⟨trivial, trivial⟩
  · intro src2 dst2 ant2 hs ha p hp
    have hp2 : p < h * w := by omega
    rw [denoise_temporal_eq, denoise_temporal_eq]
    simp only [temporal_after, if_pos hp2, hs p hp, ha p hp]
    exact ⟨trivial, trivial⟩

/-- C13, on a 1x1 plane. -/
theorem c13_in_bounds_witness :
    (1 ≤ 1) ∧
    ∀ x, 1 ≤ x →
      (hqdn3d_denoise_spatial (fun _ => 7) (fun _ => 0) (fun x => 5 + x) (fun _ => 0) 1 1
        (fun _ => 0) (fun _ => 0)).line_ant x = (fun x => 5 + x) x :=
  ⟨by decide,
    (c13_in_bounds (fun _ => 7) (fun _ => 0) (fun x => 5 + x) (fun _ => 0) 1 1
      (fun _ => 0) (fun _ => 0) (by decide) (by decide)).2.1⟩

/-! ## Frame processing -/

/-- C11. End-of-stream pass-through: for an input buffer with `size <= 0`,
`hb_denoise_work` returns `HB_FILTER_DONE`, sets `*buf_out` to that same
buffer and `*buf_in` to null, and leaves the private data (row accumulator,
previous-frame buffers, tables) as it was; for a buffer with `size > 0` it
returns `HB_FILTER_OK`. -/
theorem c11_end_of_stream (pv : Private) (inb out0 : HbBuffer) (line0 : Buf) :
    (inb.size ≤ 0 →
      hb_denoise_work pv inb out0 line0
        = { ret := FilterStatus.HB_FILTER_DONE, buf_in := none, buf_out := some inb,
            pv := pv }) ∧
    (0 < inb.size →
      (hb_denoise_work pv inb out0 line0).ret = FilterStatus.HB_FILTER_OK) := by
  constructor
  · intro hs
    simp only [hb_denoise_work, if_pos hs]
  · intro hs
    have hn : ¬ inb.size ≤ 0 := by omega
    simp only [hb_denoise_work, if_neg hn]

/-- C11, for an empty buffer after initialisation. -/
theorem c11_end_of_stream_witness :
    (hb_denoise_work (hb_denoise_init realLibm (⟨0, 0, 0, 0⟩ : Strengths ℝ) none).2
        { size := 0, plane := fun _ => ⟨fun _ => 0, 0, 0⟩, s := 5 }
        { size := 1, plane := fun _ => ⟨fun _ => 0, 0, 0⟩, s := 0 } (fun _ => 0)).ret
      = FilterStatus.HB_FILTER_DONE := by
  have h := (c11_end_of_stream
    (hb_denoise_init realLibm (⟨0, 0, 0, 0⟩ : Strengths ℝ) none).2
    { size := 0, plane := fun _ => ⟨fun _ => 0, 0, 0⟩, s := 5 }
    { size := 1, plane := fun _ => ⟨fun _ => 0, 0, 0⟩, s := 0 } (fun _ => 0)).1 (le_refl 0)
  rw [h]

/-- C20. Each plane is filtered with its own channel's tables. After
`hb_denoise_init` with the four values
`spatial_luma:spatial_chroma:temporal_luma:temporal_chroma`, the loop body of
`hb_denoise_work` filters plane 0 with the tables built from `spatial_luma`
and `temporal_luma`, and planes 1 and 2 with the tables built from
`spatial_chroma` and `temporal_chroma`, reading `hqdn3d_frame[c]` and
updating it and no other previous-frame pointer; a frame with `size > 0`
runs the body for the planes 0, 1, 2 in this order. -/
theorem c20_plane_tables {K : Type} [LinearOrderedField K] [FloorRing K] (m : Libm K)
    (locals : Strengths K) (sl sc tl tc : K) (pv : Private) (inb out0 : HbBuffer)
    (line0 : Buf)
    (hpv : pv.hqdn3d_coef
      = (hb_denoise_init m locals (some (.conv [sl, sc, tl, tc]))).2.hqdn3d_coef) :
    (∀ st : WorkState,
      work_plane pv.hqdn3d_coef inb st 0
        = { line := (hqdn3d_denoise (inb.plane 0).data (st.out_plane 0).data st.line
              (st.frame 0) (inb.plane 0).stride (inb.plane 0).height
              (hqdn3d_precalc_coef m (fun _ => 0) sl)
              (hqdn3d_precalc_coef m (fun _ => 0) tl)).line_ant,
            frame := Function.update st.frame 0
              (some (hqdn3d_denoise (inb.plane 0).data (st.out_plane 0).data st.line
                (st.frame 0) (inb.plane 0).stride (inb.plane 0).height
                (hqdn3d_precalc_coef m (fun _ => 0) sl)
                (hqdn3d_precalc_coef m (fun _ => 0) tl)).frame_ant),
            out_plane := Function.update st.out_plane 0
              { st.out_plane 0 with
                data := (hqdn3d_denoise (inb.plane 0).data (st.out_plane 0).data st.line
                  (st.frame 0) (inb.plane 0).stride (inb.plane 0).height
                  (hqdn3d_precalc_coef m (fun _ => 0) sl)
                  (hqdn3d_precalc_coef m (fun _ => 0) tl)).frame_dst } }) ∧
    (∀ (st : WorkState) (c : Nat), c = 1 ∨ c = 2 →
      work_plane pv.hqdn3d_coef inb st c
        = { line := (hqdn3d_denoise (inb.plane c).data (st.out_plane c).data st.line
              (st.frame c) (inb.plane c).stride (inb.plane c).height
              (hqdn3d_precalc_coef m (fun _ => 0) sc)
              (hqdn3d_precalc_coef m (fun _ => 0) tc)).line_ant,
            frame := Function.update st.frame c
              (some (hqdn3d_denoise (inb.plane c).data (st.out_plane c).data st.line
                (st.frame c) (inb.plane c).stride (inb.plane c).height
                (hqdn3d_precalc_coef m (fun _ => 0) sc)
                (hqdn3d_precalc_coef m (fun _ => 0) tc)).frame_ant),
            out_plane := Function.update st.out_plane c
              { st.out_plane c with
                data := (hqdn3d_denoise (inb.plane c).data (st.out_plane c).data st.line
                  (st.frame c) (inb.plane c).stride (inb.plane c).height
                  (hqdn3d_precalc_coef m (fun _ => 0) sc)
                  (hqdn3d_precalc_coef m (fun _ => 0) tc)).frame_dst } }) ∧
    (0 < inb.size →
      hb_denoise_work pv inb out0 line0
        = { ret := FilterStatus.HB_FILTER_OK,
            buf_in := some inb,
            buf_out := some
              { out0 with
                plane := (work_plane pv.hqdn3d_coef inb
                  (work_plane pv.hqdn3d_coef inb
                    (work_plane pv.hqdn3d_coef inb
                      { line := (match pv.hqdn3d_line with
                          | none => line0
                          | some l => l),
                        frame := pv.hqdn3d_frame, out_plane := out0.plane } 0) 1)
                  2).out_plane,
                s := inb.s },
            pv :=
              { pv with
                hqdn3d_line := some (work_plane pv.hqdn3d_coef inb
                  (work_plane pv.hqdn3d_coef inb
                    (work_plane pv.hqdn3d_coef inb
                      { line := (match pv.hqdn3d_line with
                          | none => line0
                          | some l => l),
                        frame := pv.hqdn3d_frame, out_plane := out0.plane } 0) 1)
                  2).line,
                hqdn3d_frame := (work_plane pv.hqdn3d_coef inb
                  (work_plane pv.hqdn3d_coef inb
                    (work_plane pv.hqdn3d_coef inb
                      { line := (match pv.hqdn3d_line with
                          | none => line0
                          | some l => l),
                        frame := pv.hqdn3d_frame, out_plane := out0.plane } 0) 1)
                  2).frame } }) := by
  have h0 : pv.hqdn3d_coef 0 = hqdn3d_precalc_coef m (fun _ => 0) sl := by
    rw [hpv]
    simp only [hb_denoise_init, init_strengths_four, if_true]
  have h1 : pv.hqdn3d_coef 1 = hqdn3d_precalc_coef m (fun _ => 0) tl := by
    rw [hpv]
    simp [hb_denoise_init, init_strengths_four]
  have h2 : pv.hqdn3d_coef 2 = hqdn3d_precalc_coef m (fun _ => 0) sc := by
    rw [hpv]
    simp [hb_denoise_init, init_strengths_four]
  have h3 : pv.hqdn3d_coef 3 = hqdn3d_precalc_coef m (fun _ => 0) tc := by
    rw [hpv]
    simp [hb_denoise_init, init_strengths_four]
  refine ⟨?_, ?_, ?_⟩
  · intro st
    simp [work_plane, h0, h1]
  · intro st c hc
    rcases hc with hc | hc <;> subst hc <;> simp [work_plane, h2, h3]
  · intro hs
    have hn : ¬ inb.size ≤ 0 := by omega
    have hr : List.range 3 = [0, 1, 2] := by decide
    simp only [hb_denoise_work, if_neg hn, hr, List.foldl_cons, List.foldl_nil]

/-- C20, after initialisation with `4:3:6:4.5` in real arithmetic: plane 0
of a frame goes through the tables of the thresholds 4 and 6. -/
theorem c20_plane_tables_witness :
    ((hb_denoise_init realLibm (⟨0, 0, 0, 0⟩ : Strengths ℝ)
        (some (.conv [4, 3, 6, 9 / 2]))).2.hqdn3d_coef
      = (hb_denoise_init realLibm (⟨0, 0, 0, 0⟩ : Strengths ℝ)
        (some (.conv [4, 3, 6, 9 / 2]))).2.hqdn3d_coef) ∧
    (work_plane
        (hb_denoise_init realLibm (⟨0, 0, 0, 0⟩ : Strengths ℝ)
          (some (.conv [4, 3, 6, 9 / 2]))).2.hqdn3d_coef
        { size := 4, plane := fun _ => ⟨fun q => 10 * q + 7, 2, 2⟩, s := 5 }
        { line := fun _ => 0, frame := fun _ => none,
          out_plane := fun _ => ⟨fun _ => 0, 2, 2⟩ } 0).line
      = (hqdn3d_denoise (fun q => 10 * q + 7) (fun _ => 0) (fun _ => 0) none 2 2
          (hqdn3d_precalc_coef realLibm (fun _ => 0) 4)
          (hqdn3d_precalc_coef realLibm (fun _ => 0) 6)).line_ant :=
  ⟨rfl, congrArg WorkState.line
    ((c20_plane_tables realLibm (⟨0, 0, 0, 0⟩ : Strengths ℝ) 4 3 6 (9 / 2)
      (hb_denoise_init realLibm (⟨0, 0, 0, 0⟩ : Strengths ℝ)
        (some (.conv [4, 3, 6, 9 / 2]))).2
      { size := 4, plane := fun _ => ⟨fun q => 10 * q + 7, 2, 2⟩, s := 5 }
      { size := 4, plane := fun _ => ⟨fun _ => 0, 2, 2⟩, s := 0 } (fun _ => 0) rfl).1
      { line := fun _ => 0, frame := fun _ => none,
        out_plane := fun _ => ⟨fun _ => 0, 2, 2⟩ })⟩

end Hqdn3d
